import Mathlib

/-!
Verification development for `readthedocs/oauth/utils.py`: a shallow
embedding of the module's session lookup, pagination, importer, webhook
and token-lookup functions, together with theorems settling the frozen
claims about them.

Python values returned by the vendor APIs are modelled by an inductive
`Json` type; Python exceptions by `PyError`; fallible code returns
`Except PyError`.  Side effects (repository/organization upserts, HTTP
requests, `print` calls, log lines) are threaded through an explicit
`Effects` record.  `while` loops over pagination links take a fuel
parameter; running out of fuel surfaces as the pseudo-error
`PyError.outOfFuel`, which no `except` clause of the source catches.
-/

/-- Parsed JSON value, as produced by `response.json()`. -/
inductive Json where
  | null : Json
  | bool : Bool → Json
  | num : Int → Json
  | str : String → Json
  | arr : List Json → Json
  | obj : List (String × Json) → Json

/-- Python exceptions relevant to this module.  `doesNotExist` and
`multipleObjectsReturned` model Django's `QuerySet.get` outcomes;
`exception` models a `raise Exception(msg)`; `outOfFuel` is the fuel
marker for an unfinished pagination loop (it is not a Python
exception and no handler in the model catches it). -/
inductive PyError where
  | typeError : PyError
  | valueError : PyError
  | keyError : PyError
  | attributeError : PyError
  | nameError : PyError
  | doesNotExist : PyError
  | multipleObjectsReturned : PyError
  | outOfFuel : PyError
  | exception : String → PyError
deriving DecidableEq

/-- Association-list lookup used for JSON object fields. -/
def jsonLookup : List (String × Json) → String → Option Json
  | [], _ => none
  | (k, v) :: rest, key => if k == key then some v else jsonLookup rest key

/-- Python subscription `value[key]` with a string key: succeeds only on a
dict; a dict without the key raises `KeyError`; every non-dict value
(including lists and strings, whose indices must be integers) raises
`TypeError`. -/
def pySubscript : Json → String → Except PyError Json
  | .obj fields, key =>
    match jsonLookup fields key with
    | some v => .ok v
    | none => .error .keyError
  | _, _ => .error .typeError

/-- Python iteration `for x in value`: lists yield their elements, dicts
their keys, strings their characters; `None`, numbers and booleans are
not iterable and raise `TypeError`. -/
def pyIter : Json → Except PyError (List Json)
  | .arr elems => .ok elems
  | .obj fields => .ok (fields.map (fun kv => Json.str kv.1))
  | .str s => .ok (s.toList.map (fun c => Json.str (String.mk [c])))
  | _ => .error .typeError

/-- Python `value.get(key)`: a dict method, so any non-dict receiver
raises `AttributeError`; on a dict it returns the value or `None`
(modelled as `none`). -/
def pyDictGet : Json → String → Except PyError (Option Json)
  | .obj fields, key => .ok (jsonLookup fields key)
  | _, _ => .error .attributeError

/-- Python `value.keys()`: dict keys; non-dict receivers raise
`AttributeError`. -/
def pyKeys : Json → Except PyError (List String)
  | .obj fields => .ok (fields.map (fun kv => kv.1))
  | _ => .error .attributeError

/-- Python truthiness of a JSON value. -/
def pyTruthy : Json → Bool
  | .null => false
  | .bool b => b
  | .num n => n != 0
  | .str s => s != ""
  | .arr elems => !elems.isEmpty
  | .obj fields => !fields.isEmpty

/-- Python `str()` of a JSON value, as used by `%s` formatting.  The
container cases abbreviate Python's repr; no caller in this module
formats a container into a URL on the paths the claims exercise. -/
def pyStr : Json → String
  | .null => "None"
  | .bool b => if b then "True" else "False"
  | .num n => toString n
  | .str s => s
  | .arr elems => "<list of " ++ toString elems.length ++ " items>"
  | .obj fields => "<dict of " ++ toString fields.length ++ " items>"

/-- `requests` needs a string URL; `session.get` on any other value
fails, modelled as `TypeError`. -/
def pyUrlString : Json → Except PyError String
  | .str s => .ok s
  | _ => .error .typeError

/-- An HTTP response as this module consumes it.  `body` is the parsed
JSON (`none` models a body that is not valid JSON, so that `.json()`
raises `ValueError`).  `linksNext` models `r.links.get('next')` — the
outer option is presence of the `next` relation, the inner option the
`url` entry of that relation (requests parses both from the `Link`
header). -/
structure HttpResponse where
  body : Option Json
  linksNext : Option (Option String)

/-- `r.json()`: the parsed body, or `ValueError` when the body is not
valid JSON. -/
def rJson (r : HttpResponse) : Except PyError Json :=
  match r.body with
  | some j => .ok j
  | none => .error .valueError

/-- Truthiness of the `url` loop variable (a string or `None`) in the
`while url:` loops of both paginators. -/
def urlTruthy : Option String → Bool
  | none => false
  | some u => u != ""

/-- Loop of `github_paginate`, fuelled.  Per iteration: one fetch,
`result.extend(r.json())` (raising `ValueError` on an invalid body and
`TypeError` on a non-iterable one), then
`next_url = r.links.get('next'); url = next_url.get('url') if next_url else None`.
The second component of the result is the list of URLs fetched. -/
def githubPaginateLoop (fetch : String → HttpResponse) :
    Nat → Option String → List Json → List String →
    Except PyError (List Json) × List String
  | _, none, result, trace => (.ok result, trace)
  | fuel, some u, result, trace =>
    if u = "" then (.ok result, trace)
    else
      match fuel with
      | 0 => (.error .outOfFuel, trace)
      | f + 1 =>
        let r := fetch u
        let trace2 := trace ++ [u]
        match rJson r with
        | .error e => (.error e, trace2)
        | .ok j =>
          match pyIter j with
          | .error e => (.error e, trace2)
          | .ok items =>
            let url2 : Option String :=
              match r.linksNext with
              | some nextUrl => nextUrl
              | none => none
            githubPaginateLoop fetch f url2 (result ++ items) trace2

/-- `github_paginate(session, url)`: combines the pages linked via the
`next` relation of the `Link` header into one flat list. -/
def github_paginate (fetch : String → HttpResponse) (fuel : Nat) (url : String) :
    Except PyError (List Json) × List String :=
  githubPaginateLoop fetch fuel (some url) [] []

/-- Loop of `bitbucket_paginate`, fuelled.  The loop variable holds
whatever `page.get('next')` produced (a JSON value), as in the source;
per iteration: one fetch, `result.extend([r.json()])` (appending the raw
page object), then `next_url = r.json().get('next')` and
`url = next_url if next_url else None`. -/
def bitbucketPaginateLoop (fetch : String → HttpResponse) :
    Nat → Option Json → List Json → List String →
    Except PyError (List Json) × List String
  | _, none, result, trace => (.ok result, trace)
  | fuel, some u, result, trace =>
    if pyTruthy u = false then (.ok result, trace)
    else
      match fuel with
      | 0 => (.error .outOfFuel, trace)
      | f + 1 =>
        match pyUrlString u with
        | .error e => (.error e, trace)
        | .ok us =>
          let r := fetch us
          let trace2 := trace ++ [us]
          match rJson r with
          | .error e => (.error e, trace2)
          | .ok j =>
            match pyDictGet j "next" with
            | .error e => (.error e, trace2)
            | .ok nextUrl =>
              let url2 : Option Json :=
                match nextUrl with
                | some nj => if pyTruthy nj then some nj else none
                | none => none
              bitbucketPaginateLoop fetch f url2 (result ++ [j]) trace2

/-- `bitbucket_paginate(session, url)`: collects the raw page objects
linked via the in-body `next` field, one element per fetched page. -/
def bitbucket_paginate (fetch : String → HttpResponse) (fuel : Nat) (url : String) :
    Except PyError (List Json) × List String :=
  bitbucketPaginateLoop fetch fuel (some (Json.str url)) [] []

/-- `GitHubProvider.id` from allauth. -/
def githubProviderId : String := "github"

/-- `BitbucketProvider.id` from allauth. -/
def bitbucketProviderId : String := "bitbucket"

/-- A stored `SocialToken` row together with the fields of its related
`SocialApp` and owning user that this module reads. -/
structure SocialToken where
  token : String
  tokenSecret : String
  appClientId : String
  appSecret : String
  provider : String
  username : String

/-- A stored allauth `SocialAccount` row (provider, owning user, vendor
account identifier `uid`). -/
structure SocialAccount where
  provider : String
  username : String
  uid : String

/-- A Django user as consumed here (only the username is read). -/
structure User where
  username : String

/-- The credential store read by this module. -/
structure Db where
  socialTokens : List SocialToken
  socialAccounts : List SocialAccount

/-- `SocialToken.objects.filter(account__user__username=..., app__provider=...)`,
in stored order. -/
def tokensFor (db : Db) (user : User) (provider : String) : List SocialToken :=
  db.socialTokens.filter
    (fun t => t.username == user.username && t.provider == provider)

/-- `user.socialaccount_set.filter(provider=...)`, in stored order. -/
def accountsFor (db : Db) (user : User) (provider : String) : List SocialAccount :=
  db.socialAccounts.filter
    (fun a => a.username == user.username && a.provider == provider)

/-- `user.socialaccount_set.get(provider=...)`: Django's `QuerySet.get`
raises `DoesNotExist` on zero matches and `MultipleObjectsReturned` on
more than one. -/
def socialaccount_get (db : Db) (user : User) (provider : String) :
    Except PyError SocialAccount :=
  match accountsFor db user provider with
  | [] => .error .doesNotExist
  | [a] => .ok a
  | _ :: _ :: _ => .error .multipleObjectsReturned

/-- An authenticated requests session: OAuth2 (bearer token) for GitHub,
OAuth1 (consumer plus resource-owner keys) for Bitbucket. -/
inductive OAuthSession where
  | oauth2 : (clientId accessToken tokenType : String) → OAuthSession
  | oauth1 : (clientKey clientSecret resourceOwnerKey resourceOwnerSecret : String) → OAuthSession

/-- `get_oauth_session(user, provider)`: first matching stored token or
`None`; builds the provider-specific session.  For a provider other than
the two named ones the local `session` is never assigned and the final
`return session or None` raises `UnboundLocalError` (a `NameError`),
modelled as `.error .nameError`. -/
def get_oauth_session (db : Db) (user : User) (provider : String) :
    Except PyError (Option OAuthSession) :=
  match tokensFor db user provider with
  | [] => .ok none
  | token :: _ =>
    if provider == githubProviderId then
      .ok (some (.oauth2 token.appClientId token.token "bearer"))
    else if provider == bitbucketProviderId then
      .ok (some (.oauth1 token.appClientId token.appSecret token.token token.tokenSecret))
    else
      .error .nameError

/-- An outbound POST request as issued by the webhook registrars. -/
structure PostRequest where
  url : String
  body : Json
  contentType : String

/-- A `RemoteOrganization` record as upserted by the importers. -/
structure RemoteOrg where
  json : Json
  user : User

/-- A `RemoteRepository` record as upserted by the importers. -/
structure RemoteRepo where
  json : Json
  user : User
  organization : Option RemoteOrg

/-- The side effects an import run accumulates: repository upserts,
organization upserts, HTTP GETs issued, and values printed by
`process_bitbucket_json`'s `except TypeError` handler. -/
structure Effects where
  repos : List RemoteRepo
  orgs : List RemoteOrg
  gets : List String
  printed : List PyError

/-- The empty effect state at the start of a run. -/
def Effects.empty : Effects := ⟨[], [], [], []⟩

/-- Modelled from the spec: `RemoteRepository.objects.create_from_github_api`
(defined in `readthedocs/oauth/models.py`, which is not among the
sources) upserts a `RemoteRepository` from a vendor repository object,
reading its name/URL/privacy fields.  Reading those fields from a
non-dict JSON value fails with `TypeError`, as Python string-key access
does. -/
def RemoteRepository.create_from_github_api (repo : Json) (user : User)
    (organization : Option RemoteOrg) : Except PyError RemoteRepo :=
  match repo with
  | .obj _ => .ok ⟨repo, user, organization⟩
  | _ => .error .typeError

/-- Modelled from the spec: `RemoteOrganization.objects.create_from_github_api`
(in `readthedocs/oauth/models.py`, not among the sources) upserts a
`RemoteOrganization` from a vendor organization object; a non-dict value
fails with `TypeError`. -/
def RemoteOrganization.create_from_github_api (org : Json) (user : User) :
    Except PyError RemoteOrg :=
  match org with
  | .obj _ => .ok ⟨org, user⟩
  | _ => .error .typeError

/-- Modelled from the spec: `RemoteRepository.objects.create_from_bitbucket_api`
(in `readthedocs/oauth/models.py`, not among the sources) upserts a
`RemoteRepository` from a vendor repository object; a non-dict value
fails with `TypeError`. -/
def RemoteRepository.create_from_bitbucket_api (repo : Json) (user : User) :
    Except PyError RemoteRepo :=
  match repo with
  | .obj _ => .ok ⟨repo, user, none⟩
  | _ => .error .typeError

/-- `try: body except (e1, e2, ...): raise Exception(msg)` — an error of
the body belonging to `errs` is re-raised as the generic reconnect
`Exception msg`; any other error propagates unchanged.  Effects made
before the failure are kept (no rollback). -/
def catchAs {α : Type} (errs : List PyError) (msg : String)
    (body : Effects → Except PyError α × Effects) :
    Effects → Except PyError α × Effects := fun eff =>
  match body eff with
  | (.error e, eff2) =>
    if e ∈ errs then (.error (.exception msg), eff2) else (.error e, eff2)
  | ok => ok

/-- Message of the phase-1 GitHub reconnect error. -/
def ghMsg1 : String :=
  "Could not sync your GitHub repositories, try reconnecting your account"

/-- Message of the phase-2 GitHub reconnect error. -/
def ghMsg2 : String :=
  "Could not sync your GitHub organizations, try reconnecting your account"

/-- Message of the phase-1 Bitbucket reconnect error. -/
def bbMsg1 : String :=
  "Could not sync your Bitbucket repositories, try reconnecting your account"

/-- Message of the phase-2 Bitbucket reconnect error. -/
def bbMsg2 : String :=
  "Could not sync your Bitbucket team repositories, try reconnecting your account"

/-- Start URL of the GitHub user-repositories listing. -/
def ghUserReposUrl : String := "https://api.github.com/user/repos?per_page=100"

/-- URL of the GitHub user-organizations listing. -/
def ghOrgsUrl : String := "https://api.github.com/user/orgs"

/-- URL of the Bitbucket user-privileges listing. -/
def bbPrivilegesUrl : String := "https://bitbucket.org/api/1.0/user/privileges/"

/-- Body of `import_github`'s phase-1 `try` block:
`for repo in owner_resp: RemoteRepository.objects.create_from_github_api(repo, user=user)`
(also reused for the org-repo upsert loop with an organization set). -/
def gh_upsert_repos (user : User) (organization : Option RemoteOrg) :
    List Json → Effects → Except PyError Unit × Effects
  | [], eff => (.ok (), eff)
  | repo :: rest, eff =>
    match RemoteRepository.create_from_github_api repo user organization with
    | .error e => (.error e, eff)
    | .ok rr =>
      gh_upsert_repos user organization rest { eff with repos := eff.repos ++ [rr] }

/-- The per-organization part of `import_github`'s phase-2 `try` block:
for each org item, fetch the org detail, upsert the organization, then
paginate and upsert the org's repositories. -/
def gh_org_loop (fetch : String → HttpResponse) (fuel : Nat) (user : User) :
    List Json → Effects → Except PyError Unit × Effects
  | [], eff => (.ok (), eff)
  | orgJson :: rest, eff =>
    match pySubscript orgJson "login" with
    | .error e => (.error e, eff)
    | .ok login =>
      let orgUrl := "https://api.github.com/orgs/" ++ pyStr login
      let orgResp := fetch orgUrl
      let eff1 := { eff with gets := eff.gets ++ [orgUrl] }
      match rJson orgResp with
      | .error e => (.error e, eff1)
      | .ok oj =>
        match RemoteOrganization.create_from_github_api oj user with
        | .error e => (.error e, eff1)
        | .ok orgObj =>
          let eff2 := { eff1 with orgs := eff1.orgs ++ [orgObj] }
          let pag := github_paginate fetch fuel
            ("https://api.github.com/orgs/" ++ pyStr login ++ "/repos?per_page=100")
          let eff3 := { eff2 with gets := eff2.gets ++ pag.2 }
          match pag.1 with
          | .error e => (.error e, eff3)
          | .ok repos =>
            match gh_upsert_repos user (some orgObj) repos eff3 with
            | (.ok _, eff4) => gh_org_loop fetch fuel user rest eff4
            | err => err

/-- Body of `import_github`'s phase-2 `try` block, starting with
`resp = session.get('https://api.github.com/user/orgs')`. -/
def gh_org_phase (fetch : String → HttpResponse) (fuel : Nat) (user : User) :
    Effects → Except PyError Unit × Effects := fun eff =>
  let resp := fetch ghOrgsUrl
  let eff1 := { eff with gets := eff.gets ++ [ghOrgsUrl] }
  match rJson resp with
  | .error e => (.error e, eff1)
  | .ok j =>
    match pyIter j with
    | .error e => (.error e, eff1)
    | .ok orgItems => gh_org_loop fetch fuel user orgItems eff1

/-- `import_github(user, sync)`.  Note that the phase-1 pagination runs
before (outside) the phase-1 `try` block, whose
`except (TypeError, ValueError)` re-raises as the reconnect error; the
phase-2 `try` block starts at the orgs fetch.  Returns
`session is not None`. -/
def import_github (fetch : String → HttpResponse) (db : Db) (user : User)
    (sync : Bool) (fuel : Nat) :
    Effects → Except PyError Bool × Effects := fun eff =>
  match get_oauth_session db user githubProviderId with
  | .error e => (.error e, eff)
  | .ok session =>
    if sync && session.isSome then
      let pag := github_paginate fetch fuel ghUserReposUrl
      let eff1 := { eff with gets := eff.gets ++ pag.2 }
      match pag.1 with
      | .error e => (.error e, eff1)
      | .ok ownerResp =>
        match catchAs [.typeError, .valueError] ghMsg1
            (gh_upsert_repos user none ownerResp) eff1 with
        | (.error e, eff2) => (.error e, eff2)
        | (.ok _, eff2) =>
          match catchAs [.typeError, .valueError] ghMsg2
              (gh_org_phase fetch fuel user) eff2 with
          | (.error e, eff3) => (.error e, eff3)
          | (.ok _, eff3) => (.ok session.isSome, eff3)
    else (.ok session.isSome, eff)

/-- Inner upsert loop of `process_bitbucket_json`:
`for repo in page['values']: RemoteRepository.objects.create_from_bitbucket_api(repo, user=user)`. -/
def bb_upsert_values (user : User) :
    List Json → Effects → Except PyError Unit × Effects
  | [], eff => (.ok (), eff)
  | repo :: rest, eff =>
    match RemoteRepository.create_from_bitbucket_api repo user with
    | .error e => (.error e, eff)
    | .ok rr => bb_upsert_values user rest { eff with repos := eff.repos ++ [rr] }

/-- The `try` body of `process_bitbucket_json`: for each page group,
subscript `page['values']` and upsert each contained repository. -/
def process_bitbucket_json_loop (user : User) :
    List Json → Effects → Except PyError Unit × Effects
  | [], eff => (.ok (), eff)
  | page :: rest, eff =>
    match pySubscript page "values" with
    | .error e => (.error e, eff)
    | .ok values =>
      match pyIter values with
      | .error e => (.error e, eff)
      | .ok repos =>
        match bb_upsert_values user repos eff with
        | (.ok _, eff2) => process_bitbucket_json_loop user rest eff2
        | err => err

/-- `process_bitbucket_json(user, json)`: runs the page loop and catches
`TypeError` only, printing it and returning normally; every other error
(notably `KeyError` from a dict page without `values`) propagates. -/
def process_bitbucket_json (user : User) (json : List Json) :
    Effects → Except PyError Unit × Effects := fun eff =>
  match process_bitbucket_json_loop user json eff with
  | (.error .typeError, eff2) =>
    (.ok (), { eff2 with printed := eff2.printed ++ [PyError.typeError] })
  | other => other

/-- Body of `import_bitbucket`'s phase-1 `try` block: build the
user-repositories URL from `social_account.uid` (raising
`UnboundLocalError`, a `NameError`, when the account lookup left the
variable unbound), paginate it, and process the page groups. -/
def bb_user_repos_step (fetch : String → HttpResponse) (fuel : Nat) (user : User)
    (socialAccount : Option SocialAccount) :
    Effects → Except PyError Unit × Effects := fun eff =>
  match socialAccount with
  | none => (.error .nameError, eff)
  | some acct =>
    let pag := bitbucket_paginate fetch fuel
      ("https://bitbucket.org/api/2.0/repositories/" ++ acct.uid)
    let eff1 := { eff with gets := eff.gets ++ pag.2 }
    match pag.1 with
    | .error e => (.error e, eff1)
    | .ok ownerResp => process_bitbucket_json user ownerResp eff1

/-- Per-team part of `import_bitbucket`'s phase-2 `try` block: paginate
each team's repositories and process the page groups. -/
def bb_team_loop (fetch : String → HttpResponse) (fuel : Nat) (user : User) :
    List String → Effects → Except PyError Unit × Effects
  | [], eff => (.ok (), eff)
  | team :: rest, eff =>
    let pag := bitbucket_paginate fetch fuel
      ("https://bitbucket.org/api/2.0/teams/" ++ team ++ "/repositories")
    let eff1 := { eff with gets := eff.gets ++ pag.2 }
    match pag.1 with
    | .error e => (.error e, eff1)
    | .ok orgResp =>
      match process_bitbucket_json user orgResp eff1 with
      | (.ok _, eff2) => bb_team_loop fetch fuel user rest eff2
      | err => err

/-- Body of `import_bitbucket`'s phase-2 `try` block:
`for team in resp.json()['teams'].keys(): ...` over the already-fetched
privileges response. -/
def bb_team_repos_step (fetch : String → HttpResponse) (fuel : Nat) (user : User)
    (resp : HttpResponse) : Effects → Except PyError Unit × Effects := fun eff =>
  match rJson resp with
  | .error e => (.error e, eff)
  | .ok j =>
    match pySubscript j "teams" with
    | .error e => (.error e, eff)
    | .ok teams =>
      match pyKeys teams with
      | .error e => (.error e, eff)
      | .ok names => bb_team_loop fetch fuel user names eff

/-- Appends one URL to the GET log (the effect of a bare `session.get`). -/
def addGet (eff : Effects) (url : String) : Effects :=
  { eff with gets := eff.gets ++ [url] }

/-- `import_bitbucket(user, sync)`.  The account lookup catches only
`SocialAccount.DoesNotExist` (leaving `social_account` unbound);
phase 1 is wrapped in `except (TypeError, ValueError)`, the privileges
fetch sits between the two `try` blocks, and phase 2 is wrapped in
`except ValueError` only.  Returns `session is not None`. -/
def import_bitbucket (fetch : String → HttpResponse) (db : Db) (user : User)
    (sync : Bool) (fuel : Nat) :
    Effects → Except PyError Bool × Effects := fun eff =>
  match get_oauth_session db user bitbucketProviderId with
  | .error e => (.error e, eff)
  | .ok session =>
    let run : Option SocialAccount → Except PyError Bool × Effects :=
      fun socialAccount =>
        if sync && session.isSome then
          match catchAs [.typeError, .valueError] bbMsg1
              (bb_user_repos_step fetch fuel user socialAccount) eff with
          | (.error e, eff2) => (.error e, eff2)
          | (.ok _, eff2) =>
            let resp := fetch bbPrivilegesUrl
            let eff3 := addGet eff2 bbPrivilegesUrl
            match catchAs [.valueError] bbMsg2
                (bb_team_repos_step fetch fuel user resp) eff3 with
            | (.error e, eff4) => (.error e, eff4)
            | (.ok _, eff4) => (.ok session.isSome, eff4)
        else (.ok session.isSome, eff)
    match socialaccount_get db user bitbucketProviderId with
    | .error .doesNotExist => run none
    | .error e => (.error e, eff)
    | .ok acct => run (some acct)

/-- The configuration flags this module reads. -/
structure Settings where
  allowPrivateRepos : Bool
  dontHitDb : Bool
  productionDomain : String

/-- A project as consumed here: primary key, associated usernames, and
source-control URL. -/
structure Project where
  pk : Nat
  users : List String
  repo : String

/-- The log line of a failed token lookup. -/
def tokenFailLog : String := "Failed to get token for user"

/-- The local-path loop of `get_token_for_project`: for each associated
user, query their stored GitHub tokens (a database access that may
raise) and, when any exist, overwrite `token` with the first.  Returns
the loop outcome together with the value `token` holds when the loop
stops — also on an exception. -/
def localTokenLoop (queryTokens : String → Except PyError (List String)) :
    List String → Option Json → Except PyError Unit × Option Json
  | [], token => (.ok (), token)
  | u :: rest, token =>
    match queryTokens u with
    | .error e => (.error e, token)
    | .ok ts =>
      match ts with
      | [] => localTokenLoop queryTokens rest token
      | t :: _ => localTokenLoop queryTokens rest (some (Json.str t))

/-- `get_token_for_project(project, force_local)`.  `apiToken` models the
remote `api.project(pk).token().get()` call (fallible); `queryTokens`
models the per-user `SocialToken.objects.filter(...)` database query
(fallible, since ORM access touches the database).  Any exception is
logged and swallowed and whatever `token` held at that moment is
returned.  The second component is the log. -/
def get_token_for_project (settings : Settings)
    (apiToken : Nat → Except PyError Json)
    (queryTokens : String → Except PyError (List String))
    (project : Project) (forceLocal : Bool) : Option Json × List String :=
  if !settings.allowPrivateRepos then (none, [])
  else if settings.dontHitDb && !forceLocal then
    match (do pySubscript (← apiToken project.pk) "token" : Except PyError Json) with
    | .ok t => (some t, [])
    | .error _ => (none, [tokenFailLog])
  else
    match localTokenLoop queryTokens project.users none with
    | (.ok _, token) => (token, [])
    | (.error _, token) => (token, [tokenFailLog])

/-- Prefix test on character lists (structural recursion, so concrete
URLs evaluate by reduction). -/
def charsStartWith : List Char → List Char → Bool
  | _, [] => true
  | [], _ :: _ => false
  | c :: cs, d :: ds => c == d && charsStartWith cs ds

/-- Splits a character list on `/` separators. -/
def splitSlash : List Char → List (List Char)
  | [] => [[]]
  | c :: rest =>
    match splitSlash rest with
    | [] => [[c]]
    | g :: gs => if c = '/' then [] :: g :: gs else (c :: g) :: gs

/-- Modelled from the spec: `readthedocs.builds.utils.get_github_username_repo`
(not among the sources) parses a project's source URL into owner and
repository names; for `git@github.com:owner/repo.git` it yields the
owner and repo segments, and `(None, None)` when it cannot parse.
Implemented over the URL's character list so concrete URLs evaluate. -/
def get_github_username_repo (url : String) : Option String × Option String :=
  let cs := url.toList
  if charsStartWith cs "git@github.com:".toList &&
      charsStartWith cs.reverse ".git".toList.reverse then
    let mid := (cs.drop 15).take ((cs.drop 15).length - 4)
    match (splitSlash mid).map (fun g => String.mk g) with
    | [owner, repo] => (some owner, some repo)
    | _ => (none, none)
  else (none, none)

/-- `str()` of the owner/repo slot: Python formats `None` as "None". -/
def pyOptStr : Option String → String
  | none => "None"
  | some s => s

/-- `add_github_webhook(session, project)`: derives owner/repo from the
project URL and issues one POST to the GitHub hooks endpoint with the
fixed payload (the list of requests issued is returned; it always has
exactly one element, mirroring the single `session.post`). -/
def add_github_webhook (settings : Settings) (project : Project) : List PostRequest :=
  let ur := get_github_username_repo project.repo
  let data := Json.obj
    [("name", Json.str "readthedocs"),
     ("active", Json.bool true),
     ("config", Json.obj
       [("url", Json.str ("https://" ++ settings.productionDomain ++ "/github"))])]
  [{ url := "https://api.github.com/repos/" ++ pyOptStr ur.1 ++ "/" ++
       pyOptStr ur.2 ++ "/hooks",
     body := data,
     contentType := "application/json" }]

/-- The URL the GitHub loop would move to after fetching `u`
(`r.links.get('next')` then `.get('url')`). -/
def ghNext (fetch : String → HttpResponse) (u : String) : Option String :=
  match (fetch u).linksNext with
  | some nextUrl => nextUrl
  | none => none

/-- One step of the GitHub next-chain: a dead state (no URL, or a falsy
empty string) stays dead, a live one moves to the page's next link. -/
def ghStep (fetch : String → HttpResponse) : Option String → Option String
  | none => none
  | some u => if u = "" then none else ghNext fetch u

/-- The state of the GitHub next-chain after `n` steps. -/
def ghIter (fetch : String → HttpResponse) : Nat → Option String → Option String
  | 0, o => o
  | n + 1, o => ghIter fetch n (ghStep fetch o)

/-- A fetched GitHub page the loop body can digest: a valid JSON body
that Python can iterate. -/
def ghPageOk (r : HttpResponse) : Prop :=
  ∃ j items, r.body = some j ∧ pyIter j = .ok items

/-- Every live URL reachable along the GitHub next-chain serves a
digestible page. -/
def ghWF (fetch : String → HttpResponse) (o : Option String) : Prop :=
  ∀ n u, ghIter fetch n o = some u → u ≠ "" → ghPageOk (fetch u)

/-- The URL the Bitbucket loop would move to after fetching `u` (the
page body's `next` field, when it is a truthy string). -/
def bbNext (fetch : String → HttpResponse) (u : String) : Option String :=
  match (fetch u).body with
  | some (.obj fields) =>
    match jsonLookup fields "next" with
    | some (.str s) => if s = "" then none else some s
    | _ => none
  | _ => none

/-- One step of the Bitbucket next-chain. -/
def bbStep (fetch : String → HttpResponse) : Option String → Option String
  | none => none
  | some u => if u = "" then none else bbNext fetch u

/-- The state of the Bitbucket next-chain after `n` steps. -/
def bbIter (fetch : String → HttpResponse) : Nat → Option String → Option String
  | 0, o => o
  | n + 1, o => bbIter fetch n (bbStep fetch o)

/-- A fetched Bitbucket page the loop body can digest: a valid JSON dict
body whose `next` field, when present and truthy, is a string. -/
def bbPageOk (r : HttpResponse) : Prop :=
  ∃ fields, r.body = some (Json.obj fields) ∧
    ∀ nj, jsonLookup fields "next" = some nj → pyTruthy nj = true →
      ∃ s, nj = Json.str s

/-- Every live URL reachable along the Bitbucket next-chain serves a
digestible page. -/
def bbWF (fetch : String → HttpResponse) (o : Option String) : Prop :=
  ∀ n u, bbIter fetch n o = some u → u ≠ "" → bbPageOk (fetch u)

/-- A world serving a GitHub-style page sequence: each listed URL is
truthy and returns a JSON-array body whose `Link` header points at the
next listed URL (absent for the last page). -/
def ghServes (fetch : String → HttpResponse) : List String → List (List Json) → Prop
  | [], [] => True
  | u :: us, items :: rest =>
      u ≠ "" ∧
      fetch u = ⟨some (Json.arr items),
        match us with
        | [] => none
        | u2 :: _ => some (some u2)⟩ ∧
      ghServes fetch us rest
  | _, _ => False

/-- A world serving a Bitbucket-style page sequence: each listed URL is
truthy and returns the corresponding raw page object, whose body `next`
field is the next listed URL (absent for the last page). -/
def bbServes (fetch : String → HttpResponse) : List String → List Json → Prop
  | [], [] => True
  | u :: us, p :: ps =>
      u ≠ "" ∧
      (fetch u).body = some p ∧
      pyDictGet p "next" = .ok
        (match us with
         | [] => none
         | u2 :: _ => some (Json.str u2)) ∧
      bbServes fetch us ps
  | _, _ => False

/-- The GitHub loop state corresponding to a remaining URL list. -/
def strHeadOpt : List String → Option String
  | [] => none
  | u :: _ => some u

/-- The Bitbucket loop state corresponding to a remaining URL list (the
loop variable holds a JSON value). -/
def strHeadJson : List String → Option Json
  | [] => none
  | u :: _ => some (Json.str u)

/-- The items of a well-formed Bitbucket page group (`page['values']`
iterated); `[]` when the page is not well-formed. -/
def pageItemsOk (p : Json) : List Json :=
  match pySubscript p "values" with
  | .ok vs =>
    match pyIter vs with
    | .ok rs => rs
    | .error _ => []
  | .error _ => []

/-- A Bitbucket page group `process_bitbucket_json` digests fully: it has
an iterable `values` entry all of whose items are dicts. -/
def GoodPage (p : Json) : Prop :=
  ∃ vs rs, pySubscript p "values" = .ok vs ∧ pyIter vs = .ok rs ∧
    ∀ r ∈ rs, ∃ fields, r = Json.obj fields

/-- A malformed page group whose processing raises `TypeError`: either
the page is not subscriptable, or its `values` entry is not iterable. -/
def BadTypePage (bad : Json) : Prop :=
  pySubscript bad "values" = .error .typeError ∨
  ∃ vs, pySubscript bad "values" = .ok vs ∧ pyIter vs = .error .typeError

/-- The repository upserts produced by processing a list of page groups. -/
def pagesUpserts (user : User) (pages : List Json) : List RemoteRepo :=
  (pages.map pageItemsOk).flatten.map (fun r => ⟨r, user, none⟩)

/-- The value the `token` variable of `get_token_for_project`'s local
loop holds after scanning a user list, starting from `tok`: overwritten
by the first stored token of every user that has one. -/
def lastTokenFrom (queryTokens : String → Except PyError (List String)) :
    List String → Option Json → Option Json
  | [], tok => tok
  | u :: rest, tok =>
    match queryTokens u with
    | .ok (t :: _) => lastTokenFrom queryTokens rest (some (Json.str t))
    | _ => lastTokenFrom queryTokens rest tok

/-! ### Concrete worlds used by counterexamples and witnesses -/

/-- A user shared by the concrete scenarios. -/
def userW : User := ⟨"u"⟩

/-- Credential store with one Bitbucket token and one Bitbucket social
account for `userW`. -/
def dbBbW : Db :=
  ⟨[⟨"tok", "sec", "cid", "csec", "bitbucket", "u"⟩], [⟨"bitbucket", "u", "uid1"⟩]⟩

/-- Credential store with one GitHub token for `userW`. -/
def dbGhW : Db := ⟨[⟨"tok", "", "cid", "csec", "github", "u"⟩], []⟩

/-- Credential store with a Bitbucket token but no social account. -/
def dbNoAcctW : Db := ⟨[⟨"tok", "sec", "cid", "csec", "bitbucket", "u"⟩], []⟩

/-- Credential store with no tokens but two Bitbucket social accounts. -/
def dbTwoAcctW : Db := ⟨[], [⟨"bitbucket", "u", "uid1"⟩, ⟨"bitbucket", "u", "uid2"⟩]⟩

/-- The user-repositories URL for `uid1`. -/
def bbReposUidUrl : String := "https://bitbucket.org/api/2.0/repositories/uid1"

/-- World for the C1 counterexample: the user-repositories endpoint
serves one empty page group, and the privileges endpoint serves the JSON
number `3`, so that `resp.json()['teams']` raises `TypeError` in the
team phase. -/
def fetchC1x : String → HttpResponse := fun u =>
  if u = bbReposUidUrl then ⟨some (.obj [("values", .arr [])]), none⟩
  else if u = bbPrivilegesUrl then ⟨some (.num 3), none⟩
  else ⟨none, none⟩

/-- World for the C1 witness: the user-repositories endpoint serves one
empty page group, and the privileges endpoint serves an invalid JSON
body, so that `resp.json()` raises `ValueError` in the team phase. -/
def fetchC1w : String → HttpResponse := fun u =>
  if u = bbReposUidUrl then ⟨some (.obj [("values", .arr [])]), none⟩
  else ⟨none, none⟩

/-- World for the C2 counterexample: the user-repositories listing is the
JSON number `1` (not iterable), so `result.extend(r.json())` raises
`TypeError` inside `github_paginate`, outside the `try` block. -/
def fetchC2x : String → HttpResponse := fun u =>
  if u = ghUserReposUrl then ⟨some (.num 1), none⟩ else ⟨none, none⟩

/-- World for the C2 witness: the user-repositories listing is an array
holding one repository object followed by a number. -/
def fetchC2w : String → HttpResponse := fun u =>
  if u = ghUserReposUrl
  then ⟨some (.arr [.obj [("name", .str "r1")], .num 7]), none⟩
  else ⟨none, none⟩

/-- Second world for the C2 witness: the user-repositories listing is a
non-empty JSON object, so `result.extend(r.json())` accumulates its keys
as strings and the first upsert raises `TypeError`. -/
def fetchC2o : String → HttpResponse := fun u =>
  if u = ghUserReposUrl then ⟨some (.obj [("k", .null)]), none⟩ else ⟨none, none⟩

/-- A world serving nothing useful (invalid JSON everywhere); the C3 and
C5 scenarios never reach a fetch. -/
def fetchNoneW : String → HttpResponse := fun _ => ⟨none, none⟩

/-- Token queries for the C4 scenarios: `alice` has a stored token,
querying `bob` raises a database error. -/
def queryW : String → Except PyError (List String) := fun u =>
  if u = "alice" then .ok ["tokA"] else .error (.exception "database error")

/-- World for the C6 witness: three pages of 100, 100 and 1 items linked
via the `Link` header's `next` relation. -/
def fetchC6w : String → HttpResponse := fun u =>
  if u = "a" then ⟨some (.arr (List.replicate 100 (.obj []))), some (some "b")⟩
  else if u = "b" then ⟨some (.arr (List.replicate 100 (.obj []))), some (some "c")⟩
  else if u = "c" then ⟨some (.arr [.obj []]), none⟩
  else ⟨none, none⟩

/-- First page object of the C7 witness world (with a `next` URL). -/
def bbPageOneW : Json := .obj [("values", .arr []), ("next", .str "q")]

/-- Second page object of the C7 witness world (no `next`). -/
def bbPageTwoW : Json := .obj [("values", .arr [])]

/-- World for the C7 witness: two pages linked via the in-body `next`. -/
def fetchC7w : String → HttpResponse := fun u =>
  if u = "p" then ⟨some bbPageOneW, none⟩
  else if u = "q" then ⟨some bbPageTwoW, none⟩
  else ⟨none, none⟩

/-- World for the C9 witness: one well-formed page (an empty dict) at
`"w"` with no next link, for both pagination styles. -/
def fetchC9w : String → HttpResponse := fun u =>
  if u = "w" then ⟨some (.obj []), none⟩ else ⟨none, none⟩

theorem ghIter_none (fetch : String → HttpResponse) :
    ∀ n, ghIter fetch n none = none := by
  intro n
  induction n with
  | zero => rfl
  | succ n ih => simpa [ghIter, ghStep] using ih

theorem bbIter_none (fetch : String → HttpResponse) :
    ∀ n, bbIter fetch n none = none := by
  intro n
  induction n with
  | zero => rfl
  | succ n ih => simpa [bbIter, bbStep] using ih

theorem ghStep_of_dead (fetch : String → HttpResponse) (o : Option String)
    (h : urlTruthy o = false) : ghStep fetch o = none := by
  cases o with
  | none => rfl
  | some u =>
    simp only [urlTruthy, bne_eq_false_iff_eq] at h
    simp [ghStep, h]

theorem bbStep_of_dead (fetch : String → HttpResponse) (o : Option String)
    (h : urlTruthy o = false) : bbStep fetch o = none := by
  cases o with
  | none => rfl
  | some u =>
    simp only [urlTruthy, bne_eq_false_iff_eq] at h
    simp [bbStep, h]

theorem ghWF_step (fetch : String → HttpResponse) (o : Option String)
    (h : ghWF fetch o) : ghWF fetch (ghStep fetch o) := by
  intro n u hn
  exact h (n + 1) u hn

theorem bbWF_step (fetch : String → HttpResponse) (o : Option String)
    (h : bbWF fetch o) : bbWF fetch (bbStep fetch o) := by
  intro n u hn
  exact h (n + 1) u hn

theorem ghIter_dead_of_dead (fetch : String → HttpResponse) (o : Option String)
    (h : urlTruthy o = false) : ∀ n, urlTruthy (ghIter fetch n o) = false := by
  intro n
  cases n with
  | zero => exact h
  | succ n =>
    show urlTruthy (ghIter fetch n (ghStep fetch o)) = false
    rw [ghStep_of_dead fetch o h, ghIter_none]
    rfl

theorem bbIter_dead_of_dead (fetch : String → HttpResponse) (o : Option String)
    (h : urlTruthy o = false) : ∀ n, urlTruthy (bbIter fetch n o) = false := by
  intro n
  cases n with
  | zero => exact h
  | succ n =>
    show urlTruthy (bbIter fetch n (bbStep fetch o)) = false
    rw [bbStep_of_dead fetch o h, bbIter_none]
    rfl

theorem rJson_of_body (r : HttpResponse) (j : Json) (h : r.body = some j) :
    rJson r = .ok j := by
  simp [rJson, h]

theorem rJson_error (r : HttpResponse) (e : PyError) (h : rJson r = .error e) :
    e = .valueError := by
  unfold rJson at h
  cases hb : r.body with
  | none => rw [hb] at h; cases h; rfl
  | some j => rw [hb] at h; cases h

theorem pyIter_error (j : Json) (e : PyError) (h : pyIter j = .error e) :
    e = .typeError := by
  cases j <;> simp [pyIter] at h <;> exact h.symm

theorem pyDictGet_error (j : Json) (k : String) (e : PyError)
    (h : pyDictGet j k = .error e) : e = .attributeError := by
  cases j <;> simp [pyDictGet] at h <;> exact h.symm

theorem pyUrlString_error (j : Json) (e : PyError)
    (h : pyUrlString j = .error e) : e = .typeError := by
  cases j <;> simp [pyUrlString] at h <;> exact h.symm

theorem catchAs_error_mem {α : Type} (errs : List PyError) (msg : String)
    (body : Effects → Except PyError α × Effects) (eff eff2 : Effects)
    (e : PyError) (h : body eff = (.error e, eff2)) (hm : e ∈ errs) :
    catchAs errs msg body eff = (.error (.exception msg), eff2) := by
  simp [catchAs, h, hm]

theorem catchAs_error_not_mem {α : Type} (errs : List PyError) (msg : String)
    (body : Effects → Except PyError α × Effects) (eff eff2 : Effects)
    (e : PyError) (h : body eff = (.error e, eff2)) (hm : e ∉ errs) :
    catchAs errs msg body eff = (.error e, eff2) := by
  simp [catchAs, h, hm]

theorem catchAs_ok {α : Type} (errs : List PyError) (msg : String)
    (body : Effects → Except PyError α × Effects) (eff eff2 : Effects)
    (a : α) (h : body eff = (.ok a, eff2)) :
    catchAs errs msg body eff = (.ok a, eff2) := by
  simp [catchAs, h]

theorem create_gh_not_obj (bad : Json) (user : User) (org : Option RemoteOrg)
    (h : ∀ fields, bad ≠ Json.obj fields) :
    RemoteRepository.create_from_github_api bad user org = .error .typeError := by
  cases bad with
  | obj fields => exact absurd rfl (h fields)
  | _ => rfl

theorem create_bb_not_obj (bad : Json) (user : User)
    (h : ∀ fields, bad ≠ Json.obj fields) :
    RemoteRepository.create_from_bitbucket_api bad user = .error .typeError := by
  cases bad with
  | obj fields => exact absurd rfl (h fields)
  | _ => rfl

theorem gh_upsert_repos_ok (user : User) (org : Option RemoteOrg) :
    ∀ (repos : List Json) (eff : Effects),
      (∀ r ∈ repos, ∃ fields, r = Json.obj fields) →
      gh_upsert_repos user org repos eff =
        (.ok (), { eff with
          repos := eff.repos ++ repos.map (fun r => ⟨r, user, org⟩) }) := by
  intro repos
  induction repos with
  | nil => intro eff _; simp [gh_upsert_repos]
  | cons r rest ih =>
    intro eff h
    obtain ⟨fields, rfl⟩ := h _ (List.mem_cons_self _ _)
    have step : gh_upsert_repos user org (Json.obj fields :: rest) eff =
        gh_upsert_repos user org rest
          { eff with repos := eff.repos ++ [⟨Json.obj fields, user, org⟩] } := rfl
    rw [step, ih _ (fun r hr => h r (List.mem_cons_of_mem _ hr))]
    simp

theorem gh_upsert_repos_until_bad (user : User) (org : Option RemoteOrg) :
    ∀ (good : List Json) (bad : Json) (rest : List Json) (eff : Effects),
      (∀ r ∈ good, ∃ fields, r = Json.obj fields) →
      (∀ fields, bad ≠ Json.obj fields) →
      gh_upsert_repos user org (good ++ bad :: rest) eff =
        (.error .typeError, { eff with
          repos := eff.repos ++ good.map (fun r => ⟨r, user, org⟩) }) := by
  intro good
  induction good with
  | nil =>
    intro bad rest eff _ hbad
    rw [List.nil_append, gh_upsert_repos, create_gh_not_obj bad user org hbad]
    simp
  | cons r grest ih =>
    intro bad rest eff h hbad
    obtain ⟨fields, rfl⟩ := h _ (List.mem_cons_self _ _)
    have step : gh_upsert_repos user org ((Json.obj fields :: grest) ++ bad :: rest) eff =
        gh_upsert_repos user org (grest ++ bad :: rest)
          { eff with repos := eff.repos ++ [⟨Json.obj fields, user, org⟩] } := rfl
    rw [step, ih bad rest _ (fun r hr => h r (List.mem_cons_of_mem _ hr)) hbad]
    simp

theorem bb_upsert_values_ok (user : User) :
    ∀ (repos : List Json) (eff : Effects),
      (∀ r ∈ repos, ∃ fields, r = Json.obj fields) →
      bb_upsert_values user repos eff =
        (.ok (), { eff with
          repos := eff.repos ++ repos.map (fun r => ⟨r, user, none⟩) }) := by
  intro repos
  induction repos with
  | nil => intro eff _; simp [bb_upsert_values]
  | cons r rest ih =>
    intro eff h
    obtain ⟨fields, rfl⟩ := h _ (List.mem_cons_self _ _)
    have step : bb_upsert_values user (Json.obj fields :: rest) eff =
        bb_upsert_values user rest
          { eff with repos := eff.repos ++ [⟨Json.obj fields, user, none⟩] } := rfl
    rw [step, ih _ (fun r hr => h r (List.mem_cons_of_mem _ hr))]
    simp

theorem githubPaginateLoop_step (fetch : String → HttpResponse) (f : Nat)
    (u : String) (result : List Json) (trace : List String)
    (hu : u ≠ "") (j : Json) (items : List Json)
    (hf : (fetch u).body = some j) (hit : pyIter j = .ok items) :
    githubPaginateLoop fetch (f + 1) (some u) result trace =
      githubPaginateLoop fetch f
        (match (fetch u).linksNext with
         | some nextUrl => nextUrl
         | none => none)
        (result ++ items) (trace ++ [u]) := by
  rw [githubPaginateLoop, if_neg hu]
  dsimp only
  rw [rJson_of_body _ _ hf]
  dsimp only
  rw [hit]

theorem github_paginate_single (fetch : String → HttpResponse) (u : String)
    (j : Json) (items : List Json) (f : Nat)
    (hu : u ≠ "") (hf : fetch u = ⟨some j, none⟩) (hit : pyIter j = .ok items) :
    github_paginate fetch (f + 1) u = (.ok items, [u]) := by
  rw [github_paginate,
    githubPaginateLoop_step fetch f u [] [] hu j items (by rw [hf]) hit, hf]
  simp [githubPaginateLoop]

theorem bitbucketPaginateLoop_step (fetch : String → HttpResponse) (f : Nat)
    (u : String) (result : List Json) (trace : List String)
    (hu : u ≠ "") (fields : List (String × Json))
    (hf : (fetch u).body = some (Json.obj fields)) :
    bitbucketPaginateLoop fetch (f + 1) (some (Json.str u)) result trace =
      bitbucketPaginateLoop fetch f
        (match jsonLookup fields "next" with
         | some nj => if pyTruthy nj then some nj else none
         | none => none)
        (result ++ [Json.obj fields]) (trace ++ [u]) := by
  have htr : pyTruthy (Json.str u) = true := by simp [pyTruthy, hu]
  rw [bitbucketPaginateLoop, htr]
  rw [if_neg (by simp)]
  dsimp only [pyUrlString]
  rw [rJson_of_body _ _ hf]
  dsimp only [pyDictGet]

theorem ghServes_loop (fetch : String → HttpResponse) :
    ∀ (us : List String) (itemss : List (List Json)) (acc : List Json)
      (tr : List String) (fuel : Nat),
      ghServes fetch us itemss → us.length ≤ fuel →
      githubPaginateLoop fetch fuel (strHeadOpt us) acc tr =
        (.ok (acc ++ itemss.flatten), tr ++ us) := by
  intro us
  induction us with
  | nil =>
    intro itemss acc tr fuel h _
    cases itemss with
    | nil => simp [strHeadOpt, githubPaginateLoop]
    | cons a b => exact absurd h (by simp [ghServes])
  | cons u us2 ih =>
    intro itemss acc tr fuel h hlen
    cases itemss with
    | nil => exact absurd h (by simp [ghServes])
    | cons items rest =>
      obtain ⟨hu, hf, hrest⟩ := h
      cases fuel with
      | zero => simp at hlen
      | succ f =>
        have hlen2 : us2.length ≤ f := by simpa using hlen
        rw [show strHeadOpt (u :: us2) = some u from rfl,
          githubPaginateLoop_step fetch f u acc tr hu (Json.arr items) items
            (by rw [hf]) rfl, hf]
        cases us2 with
        | nil =>
          cases rest with
          | nil => simp [githubPaginateLoop]
          | cons a b => exact absurd hrest (by simp [ghServes])
        | cons u2 us3 =>
          dsimp only
          have hrec := ih rest (acc ++ items) (tr ++ [u]) f hrest hlen2
          rw [show strHeadOpt (u2 :: us3) = some u2 from rfl] at hrec
          rw [hrec]
          simp

theorem bbServes_loop (fetch : String → HttpResponse) :
    ∀ (us : List String) (ps : List Json) (acc : List Json)
      (tr : List String) (fuel : Nat),
      bbServes fetch us ps → us.length ≤ fuel →
      bitbucketPaginateLoop fetch fuel (strHeadJson us) acc tr =
        (.ok (acc ++ ps), tr ++ us) := by
  intro us
  induction us with
  | nil =>
    intro ps acc tr fuel h _
    cases ps with
    | nil => simp [strHeadJson, bitbucketPaginateLoop]
    | cons a b => exact absurd h (by simp [bbServes])
  | cons u us2 ih =>
    intro ps acc tr fuel h hlen
    cases ps with
    | nil => exact absurd h (by simp [bbServes])
    | cons p rest =>
      obtain ⟨hu, hf, hget, hrest⟩ := h
      obtain ⟨fields, rfl⟩ : ∃ fields, p = Json.obj fields := by
        cases p with
        | obj fields => exact ⟨fields, rfl⟩
        | _ => simp [pyDictGet] at hget
      cases fuel with
      | zero => simp at hlen
      | succ f =>
        have hlen2 : us2.length ≤ f := by simpa using hlen
        rw [show strHeadJson (u :: us2) = some (Json.str u) from rfl,
          bitbucketPaginateLoop_step fetch f u acc tr hu fields hf]
        cases us2 with
        | nil =>
          have hlook : jsonLookup fields "next" = none := by
            simpa [pyDictGet] using hget
          rw [hlook]
          cases rest with
          | nil => simp [bitbucketPaginateLoop]
          | cons a b => exact absurd hrest (by simp [bbServes])
        | cons u2 us3 =>
          have hlook : jsonLookup fields "next" = some (Json.str u2) := by
            simpa [pyDictGet] using hget
          rw [hlook]
          cases rest with
          | nil => exact absurd hrest (by simp [bbServes])
          | cons p2 rest2 =>
            have hu2 : u2 ≠ "" := hrest.1
            dsimp only
            have htr2 : pyTruthy (Json.str u2) = true := by simp [pyTruthy, hu2]
            rw [if_pos htr2]
            have hrec := ih (p2 :: rest2) (acc ++ [Json.obj fields]) (tr ++ [u]) f
              hrest hlen2
            rw [show strHeadJson (u2 :: us3) = some (Json.str u2) from rfl] at hrec
            rw [hrec]
            simp

theorem body_of_rJson (r : HttpResponse) (j : Json) (h : rJson r = .ok j) :
    r.body = some j := by
  unfold rJson at h
  cases hb : r.body with
  | none => rw [hb] at h; cases h
  | some j2 => rw [hb] at h; cases h; rfl

theorem githubPaginateLoop_unfold (fetch : String → HttpResponse) (f : Nat)
    (u : String) (acc : List Json) (tr : List String) (hu : u ≠ "") :
    githubPaginateLoop fetch (f + 1) (some u) acc tr =
      match rJson (fetch u) with
      | .error e => (.error e, tr ++ [u])
      | .ok j =>
        match pyIter j with
        | .error e => (.error e, tr ++ [u])
        | .ok items =>
          githubPaginateLoop fetch f
            (match (fetch u).linksNext with
             | some nextUrl => nextUrl
             | none => none)
            (acc ++ items) (tr ++ [u]) := by
  rw [githubPaginateLoop, if_neg hu]

theorem bitbucketPaginateLoop_unfold (fetch : String → HttpResponse) (f : Nat)
    (u : Json) (acc : List Json) (tr : List String) (htr : pyTruthy u = true) :
    bitbucketPaginateLoop fetch (f + 1) (some u) acc tr =
      match pyUrlString u with
      | .error e => (.error e, tr)
      | .ok us =>
        match rJson (fetch us) with
        | .error e => (.error e, tr ++ [us])
        | .ok j =>
          match pyDictGet j "next" with
          | .error e => (.error e, tr ++ [us])
          | .ok nextUrl =>
            bitbucketPaginateLoop fetch f
              (match nextUrl with
               | some nj => if pyTruthy nj then some nj else none
               | none => none)
              (acc ++ [j]) (tr ++ [us]) := by
  rw [bitbucketPaginateLoop, if_neg (by simp [htr])]

theorem gh_loop_fuel_trace (fetch : String → HttpResponse) :
    ∀ (fuel : Nat) (o : Option String) (acc : List Json) (tr : List String),
      (githubPaginateLoop fetch fuel o acc tr).1 = .error .outOfFuel →
      (githubPaginateLoop fetch fuel o acc tr).2.length = tr.length + fuel := by
  intro fuel
  induction fuel with
  | zero =>
    intro o acc tr h
    cases o with
    | none => simp [githubPaginateLoop] at h
    | some u =>
      by_cases hu : u = ""
      · rw [githubPaginateLoop, if_pos hu] at h; simp at h
      · rw [githubPaginateLoop, if_neg hu]
        simp
  | succ f ih =>
    intro o acc tr h
    cases o with
    | none => simp [githubPaginateLoop] at h
    | some u =>
      by_cases hu : u = ""
      · rw [githubPaginateLoop, if_pos hu] at h; simp at h
      · rw [githubPaginateLoop_unfold fetch f u acc tr hu] at h ⊢
        cases hj : rJson (fetch u) with
        | error e =>
          rw [hj] at h
          have := rJson_error _ _ hj
          subst this
          simp at h
        | ok j =>
          rw [hj] at h
          dsimp only at h ⊢
          cases hi : pyIter j with
          | error e =>
            rw [hi] at h
            have := pyIter_error _ _ hi
            subst this
            simp at h
          | ok items =>
            rw [hi] at h
            dsimp only at h ⊢
            have := ih _ _ _ h
            rw [this]
            simp [List.length_append]
            omega

theorem gh_next_state (fetch : String → HttpResponse) (u : String) (hu : u ≠ "") :
    (match (fetch u).linksNext with
     | some nextUrl => nextUrl
     | none => none) = ghStep fetch (some u) := by
  rw [ghStep, if_neg hu]
  rfl

theorem gh_loop_runs_out (fetch : String → HttpResponse) :
    ∀ (fuel : Nat) (o : Option String) (acc : List Json) (tr : List String),
      ghWF fetch o → urlTruthy (ghIter fetch fuel o) = true →
      (githubPaginateLoop fetch fuel o acc tr).1 = .error .outOfFuel := by
  intro fuel
  induction fuel with
  | zero =>
    intro o acc tr _ halive
    cases o with
    | none => simp [ghIter, urlTruthy] at halive
    | some u =>
      have hu : u ≠ "" := by simpa [ghIter, urlTruthy] using halive
      rw [githubPaginateLoop, if_neg hu]
  | succ f ih =>
    intro o acc tr hwf halive
    have ht : urlTruthy o = true := by
      cases hcase : urlTruthy o with
      | false =>
        exact absurd halive (by rw [ghIter_dead_of_dead fetch o hcase]; simp)
      | true => rfl
    cases o with
    | none => simp [urlTruthy] at ht
    | some u =>
      have hu : u ≠ "" := by simpa [urlTruthy] using ht
      obtain ⟨j, items, hb, hit⟩ := hwf 0 u rfl hu
      rw [githubPaginateLoop_step fetch f u acc tr hu j items hb hit,
        gh_next_state fetch u hu]
      exact ih (ghStep fetch (some u)) (acc ++ items) (tr ++ [u])
        (ghWF_step fetch (some u) hwf) halive

theorem gh_loop_terminates (fetch : String → HttpResponse) :
    ∀ (n : Nat) (o : Option String) (acc : List Json) (tr : List String)
      (fuel : Nat),
      ghWF fetch o → urlTruthy (ghIter fetch n o) = false → n ≤ fuel →
      ∃ res tr2, githubPaginateLoop fetch fuel o acc tr = (.ok res, tr2) := by
  intro n
  induction n with
  | zero =>
    intro o acc tr fuel _ hdead _
    cases o with
    | none => exact ⟨acc, tr, by simp [githubPaginateLoop]⟩
    | some u =>
      have hu : u = "" := by simpa [ghIter, urlTruthy] using hdead
      exact ⟨acc, tr, by cases fuel <;> rw [githubPaginateLoop, if_pos hu]⟩
  | succ n ih =>
    intro o acc tr fuel hwf hdead hle
    cases hcase : urlTruthy o with
    | false =>
      cases o with
      | none => exact ⟨acc, tr, by simp [githubPaginateLoop]⟩
      | some u =>
        have hu : u = "" := by simpa [urlTruthy] using hcase
        exact ⟨acc, tr, by cases fuel <;> rw [githubPaginateLoop, if_pos hu]⟩
    | true =>
      cases o with
      | none => simp [urlTruthy] at hcase
      | some u =>
        have hu : u ≠ "" := by simpa [urlTruthy] using hcase
        obtain ⟨j, items, hb, hit⟩ := hwf 0 u rfl hu
        cases fuel with
        | zero => omega
        | succ f =>
          rw [githubPaginateLoop_step fetch f u acc tr hu j items hb hit,
            gh_next_state fetch u hu]
          exact ih (ghStep fetch (some u)) (acc ++ items) (tr ++ [u]) f
            (ghWF_step fetch (some u) hwf) hdead (by omega)

theorem bb_loop_fuel_trace (fetch : String → HttpResponse) :
    ∀ (fuel : Nat) (o : Option Json) (acc : List Json) (tr : List String),
      (bitbucketPaginateLoop fetch fuel o acc tr).1 = .error .outOfFuel →
      (bitbucketPaginateLoop fetch fuel o acc tr).2.length = tr.length + fuel := by
  intro fuel
  induction fuel with
  | zero =>
    intro o acc tr h
    cases o with
    | none => simp [bitbucketPaginateLoop] at h
    | some u =>
      cases htr : pyTruthy u with
      | false => rw [bitbucketPaginateLoop, if_pos htr] at h; simp at h
      | true =>
        rw [bitbucketPaginateLoop, if_neg (by simp [htr])]
        simp
  | succ f ih =>
    intro o acc tr h
    cases o with
    | none => simp [bitbucketPaginateLoop] at h
    | some u =>
      cases htr : pyTruthy u with
      | false => rw [bitbucketPaginateLoop, if_pos htr] at h; simp at h
      | true =>
        rw [bitbucketPaginateLoop_unfold fetch f u acc tr htr] at h ⊢
        cases hus : pyUrlString u with
        | error e =>
          rw [hus] at h
          have := pyUrlString_error _ _ hus
          subst this; simp at h
        | ok us =>
          rw [hus] at h
          dsimp only at h ⊢
          cases hj : rJson (fetch us) with
          | error e =>
            rw [hj] at h
            have := rJson_error _ _ hj
            subst this; simp at h
          | ok j =>
            rw [hj] at h
            dsimp only at h ⊢
            cases hg : pyDictGet j "next" with
            | error e =>
              rw [hg] at h
              have := pyDictGet_error _ _ _ hg
              subst this; simp at h
            | ok nextUrl =>
              rw [hg] at h
              dsimp only at h ⊢
              have := ih _ _ _ h
              rw [this]
              simp [List.length_append]
              omega

theorem bb_next_state (fetch : String → HttpResponse) (u : String) (hu : u ≠ "")
    (fields : List (String × Json))
    (hb : (fetch u).body = some (Json.obj fields))
    (hnext : ∀ nj, jsonLookup fields "next" = some nj → pyTruthy nj = true →
      ∃ s, nj = Json.str s) :
    (match jsonLookup fields "next" with
     | some nj => if pyTruthy nj then some nj else none
     | none => none) = Option.map Json.str (bbStep fetch (some u)) := by
  rw [bbStep, if_neg hu, bbNext, hb]
  dsimp only
  cases hl : jsonLookup fields "next" with
  | none => rfl
  | some nj =>
    cases htr : pyTruthy nj with
    | true =>
      obtain ⟨s, rfl⟩ := hnext nj hl htr
      have hs : s ≠ "" := by simpa [pyTruthy] using htr
      dsimp only
      rw [if_pos htr, if_neg hs]
      rfl
    | false =>
      dsimp only
      rw [if_neg (by simp [htr])]
      cases nj with
      | str s =>
        have hs : s = "" := by simpa [pyTruthy] using htr
        dsimp only
        rw [if_pos hs]
        rfl
      | null => rfl
      | bool b => rfl
      | num n => rfl
      | arr a => rfl
      | obj fs => rfl

theorem bb_loop_runs_out (fetch : String → HttpResponse) :
    ∀ (fuel : Nat) (o : Option String) (acc : List Json) (tr : List String),
      bbWF fetch o → urlTruthy (bbIter fetch fuel o) = true →
      (bitbucketPaginateLoop fetch fuel (Option.map Json.str o) acc tr).1 =
        .error .outOfFuel := by
  intro fuel
  induction fuel with
  | zero =>
    intro o acc tr _ halive
    cases o with
    | none => simp [bbIter, urlTruthy] at halive
    | some u =>
      have hu : u ≠ "" := by simpa [bbIter, urlTruthy] using halive
      have htr : pyTruthy (Json.str u) = true := by simp [pyTruthy, hu]
      rw [show Option.map Json.str (some u) = some (Json.str u) from rfl]
      rw [bitbucketPaginateLoop, if_neg (by simp [htr])]
  | succ f ih =>
    intro o acc tr hwf halive
    have ht : urlTruthy o = true := by
      cases hcase : urlTruthy o with
      | false =>
        exact absurd halive (by rw [bbIter_dead_of_dead fetch o hcase]; simp)
      | true => rfl
    cases o with
    | none => simp [urlTruthy] at ht
    | some u =>
      have hu : u ≠ "" := by simpa [urlTruthy] using ht
      obtain ⟨fields, hb, hnext⟩ := hwf 0 u rfl hu
      rw [show Option.map Json.str (some u) = some (Json.str u) from rfl,
        bitbucketPaginateLoop_step fetch f u acc tr hu fields hb,
        bb_next_state fetch u hu fields hb hnext]
      exact ih (bbStep fetch (some u)) (acc ++ [Json.obj fields]) (tr ++ [u])
        (bbWF_step fetch (some u) hwf) halive

theorem bb_loop_terminates (fetch : String → HttpResponse) :
    ∀ (n : Nat) (o : Option String) (acc : List Json) (tr : List String)
      (fuel : Nat),
      bbWF fetch o → urlTruthy (bbIter fetch n o) = false → n ≤ fuel →
      ∃ res tr2,
        bitbucketPaginateLoop fetch fuel (Option.map Json.str o) acc tr =
          (.ok res, tr2) := by
  intro n
  induction n with
  | zero =>
    intro o acc tr fuel _ hdead _
    cases o with
    | none => exact ⟨acc, tr, by simp [bitbucketPaginateLoop]⟩
    | some u =>
      have hu : u = "" := by simpa [bbIter, urlTruthy] using hdead
      subst hu
      have htr : pyTruthy (Json.str "") = false := by simp [pyTruthy]
      exact ⟨acc, tr, by
        rw [show Option.map Json.str (some "") = some (Json.str "") from rfl]
        cases fuel <;> rw [bitbucketPaginateLoop, if_pos htr]⟩
  | succ n ih =>
    intro o acc tr fuel hwf hdead hle
    cases hcase : urlTruthy o with
    | false =>
      cases o with
      | none => exact ⟨acc, tr, by simp [bitbucketPaginateLoop]⟩
      | some u =>
        have hu : u = "" := by simpa [urlTruthy] using hcase
        subst hu
        have htr : pyTruthy (Json.str "") = false := by simp [pyTruthy]
        exact ⟨acc, tr, by
          rw [show Option.map Json.str (some "") = some (Json.str "") from rfl]
          cases fuel <;> rw [bitbucketPaginateLoop, if_pos htr]⟩
    | true =>
      cases o with
      | none => simp [urlTruthy] at hcase
      | some u =>
        have hu : u ≠ "" := by simpa [urlTruthy] using hcase
        obtain ⟨fields, hb, hnext⟩ := hwf 0 u rfl hu
        cases fuel with
        | zero => omega
        | succ f =>
          rw [show Option.map Json.str (some u) = some (Json.str u) from rfl,
            bitbucketPaginateLoop_step fetch f u acc tr hu fields hb,
            bb_next_state fetch u hu fields hb hnext]
          exact ih (bbStep fetch (some u)) (acc ++ [Json.obj fields]) (tr ++ [u]) f
            (bbWF_step fetch (some u) hwf) hdead (by omega)

theorem get_oauth_session_none (db : Db) (user : User) (provider : String)
    (h : tokensFor db user provider = []) :
    get_oauth_session db user provider = .ok none := by
  rw [get_oauth_session, h]

theorem get_oauth_session_github (db : Db) (user : User) (token : SocialToken)
    (ts : List SocialToken) (h : tokensFor db user githubProviderId = token :: ts) :
    get_oauth_session db user githubProviderId =
      .ok (some (.oauth2 token.appClientId token.token "bearer")) := by
  rw [get_oauth_session, h]
  rfl

theorem get_oauth_session_bitbucket (db : Db) (user : User) (token : SocialToken)
    (ts : List SocialToken)
    (h : tokensFor db user bitbucketProviderId = token :: ts) :
    get_oauth_session db user bitbucketProviderId =
      .ok (some (.oauth1 token.appClientId token.appSecret token.token
        token.tokenSecret)) := by
  rw [get_oauth_session, h]
  rfl

theorem localTokenLoop_split
    (queryTokens : String → Except PyError (List String)) :
    ∀ (pre : List String) (u : String) (rest : List String) (e : PyError)
      (tok : Option Json),
      (∀ v ∈ pre, ∃ ts, queryTokens v = .ok ts) →
      queryTokens u = .error e →
      localTokenLoop queryTokens (pre ++ u :: rest) tok =
        (.error e, lastTokenFrom queryTokens pre tok) := by
  intro pre
  induction pre with
  | nil =>
    intro u rest e tok _ herr
    rw [List.nil_append, localTokenLoop, herr, lastTokenFrom]
  | cons v pre2 ih =>
    intro u rest e tok h herr
    obtain ⟨ts, hts⟩ := h _ (List.mem_cons_self _ _)
    rw [List.cons_append, localTokenLoop, hts, lastTokenFrom, hts]
    cases ts with
    | nil => exact ih u rest e tok (fun w hw => h w (List.mem_cons_of_mem _ hw)) herr
    | cons t ts2 => exact ih u rest e _ (fun w hw => h w (List.mem_cons_of_mem _ hw)) herr

theorem pbj_loop_good (user : User) :
    ∀ (good : List Json) (l : List Json) (eff : Effects),
      (∀ p ∈ good, GoodPage p) →
      process_bitbucket_json_loop user (good ++ l) eff =
        process_bitbucket_json_loop user l
          { eff with repos := eff.repos ++ pagesUpserts user good } := by
  intro good
  induction good with
  | nil =>
    intro l eff _
    simp [pagesUpserts]
  | cons p good2 ih =>
    intro l eff h
    obtain ⟨vs, rs, h1, h2, h3⟩ := h _ (List.mem_cons_self _ _)
    rw [List.cons_append, process_bitbucket_json_loop, h1]
    dsimp only
    rw [h2]
    dsimp only
    rw [bb_upsert_values_ok user rs eff h3]
    dsimp only
    rw [ih l _ (fun q hq => h q (List.mem_cons_of_mem _ hq))]
    have hitems : pageItemsOk p = rs := by
      rw [pageItemsOk, h1]
      dsimp only
      rw [h2]
    simp [pagesUpserts, hitems]

theorem import_github_phases (fetch : String → HttpResponse) (db : Db)
    (user : User) (fuel : Nat) (sess : OAuthSession) (eff : Effects)
    (hsess : get_oauth_session db user githubProviderId = .ok (some sess)) :
    import_github fetch db user true fuel eff =
      (match (github_paginate fetch fuel ghUserReposUrl).1 with
       | .error e =>
         (.error e,
          { eff with gets := eff.gets ++ (github_paginate fetch fuel ghUserReposUrl).2 })
       | .ok ownerResp =>
         match catchAs [.typeError, .valueError] ghMsg1
             (gh_upsert_repos user none ownerResp)
             { eff with gets := eff.gets ++ (github_paginate fetch fuel ghUserReposUrl).2 } with
         | (.error e, eff2) => (.error e, eff2)
         | (.ok _, eff2) =>
           match catchAs [.typeError, .valueError] ghMsg2
               (gh_org_phase fetch fuel user) eff2 with
           | (.error e, eff3) => (.error e, eff3)
           | (.ok _, eff3) => (.ok true, eff3)) := by
  simp only [import_github, hsess]
  rfl

theorem import_bitbucket_phases (fetch : String → HttpResponse) (db : Db)
    (user : User) (fuel : Nat) (sess : OAuthSession)
    (socialAccount : Option SocialAccount) (eff : Effects)
    (hsess : get_oauth_session db user bitbucketProviderId = .ok (some sess))
    (hacct : socialaccount_get db user bitbucketProviderId =
      (match socialAccount with
       | some a => .ok a
       | none => .error .doesNotExist)) :
    import_bitbucket fetch db user true fuel eff =
      (match catchAs [.typeError, .valueError] bbMsg1
          (bb_user_repos_step fetch fuel user socialAccount) eff with
       | (.error e, eff2) => (.error e, eff2)
       | (.ok _, eff2) =>
         match catchAs [.valueError] bbMsg2
             (bb_team_repos_step fetch fuel user (fetch bbPrivilegesUrl))
             (addGet eff2 bbPrivilegesUrl) with
         | (.error e, eff4) => (.error e, eff4)
         | (.ok _, eff4) => (.ok true, eff4)) := by
  simp only [import_bitbucket, hsess]
  rw [hacct]
  cases socialAccount with
  | none => rfl
  | some a => rfl

/-! ### Claim theorems -/

/-- C6: for every sequence of pages linked via the `next` relation of the
HTTP `Link` header, the GitHub-style paginator returns the concatenation
of each page's JSON array into one flat sequence (one fetch per page, in
order); in particular three pages of 100/100/1 items yield 201 items
(see the witness). -/
theorem c6_github_paginate_flattens (fetch : String → HttpResponse)
    (u : String) (us : List String) (items : List Json)
    (itemss : List (List Json)) (fuel : Nat)
    (hserves : ghServes fetch (u :: us) (items :: itemss))
    (hfuel : (u :: us).length ≤ fuel) :
    github_paginate fetch fuel u =
      (.ok ((items :: itemss).flatten), u :: us) := by
  have h := ghServes_loop fetch (u :: us) (items :: itemss) [] [] fuel hserves hfuel
  rw [show strHeadOpt (u :: us) = some u from rfl] at h
  simpa [github_paginate] using h

/-- Witness for C6: three pages of 100, 100 and 1 items, linked via
`next`, produce one flat sequence of 201 items. -/
theorem c6_witness :
    ghServes fetchC6w ["a", "b", "c"]
      [List.replicate 100 (Json.obj []), List.replicate 100 (Json.obj []),
        [Json.obj []]] ∧
    (["a", "b", "c"] : List String).length ≤ 3 ∧
    github_paginate fetchC6w 3 "a" =
      (.ok (([List.replicate 100 (Json.obj []), List.replicate 100 (Json.obj []),
        [Json.obj []]] : List (List Json)).flatten), ["a", "b", "c"]) ∧
    (([List.replicate 100 (Json.obj []), List.replicate 100 (Json.obj []),
      [Json.obj []]] : List (List Json)).flatten).length = 201 := by
  have hs : ghServes fetchC6w ["a", "b", "c"]
      [List.replicate 100 (Json.obj []), List.replicate 100 (Json.obj []),
        [Json.obj []]] :=
    ⟨by decide, rfl, ⟨by decide, rfl, ⟨by decide, rfl, trivial⟩⟩⟩
  refine ⟨hs, by decide, ?_, ?_⟩
  · exact c6_github_paginate_flattens fetchC6w "a" ["b", "c"] _ _ 3 hs (by decide)
  · rw [List.flatten_cons, List.flatten_cons, List.flatten_cons, List.flatten_nil,
      List.append_nil, List.length_append, List.length_append]
    rfl

/-- C7: for every sequence of pages linked via a `next` URL in the JSON
body, the Bitbucket-style paginator returns one element per fetched
page, each element being the raw page object; in particular two linked
pages yield a two-element sequence (see the witness). -/
theorem c7_bitbucket_paginate_pages (fetch : String → HttpResponse)
    (u : String) (us : List String) (p : Json) (ps : List Json) (fuel : Nat)
    (hserves : bbServes fetch (u :: us) (p :: ps))
    (hfuel : (u :: us).length ≤ fuel) :
    bitbucket_paginate fetch fuel u = (.ok (p :: ps), u :: us) := by
  have h := bbServes_loop fetch (u :: us) (p :: ps) [] [] fuel hserves hfuel
  rw [show strHeadJson (u :: us) = some (Json.str u) from rfl] at h
  simpa [bitbucket_paginate] using h

/-- Witness for C7: two pages linked via the in-body `next` URL produce
the two raw page objects, in order. -/
theorem c7_witness :
    bbServes fetchC7w ["p", "q"] [bbPageOneW, bbPageTwoW] ∧
    (["p", "q"] : List String).length ≤ 2 ∧
    bitbucket_paginate fetchC7w 2 "p" =
      (.ok [bbPageOneW, bbPageTwoW], ["p", "q"]) ∧
    ([bbPageOneW, bbPageTwoW] : List Json).length = 2 := by
  have hs : bbServes fetchC7w ["p", "q"] [bbPageOneW, bbPageTwoW] :=
    ⟨by decide, rfl, rfl, ⟨by decide, rfl, rfl, trivial⟩⟩
  refine ⟨hs, by decide, ?_, rfl⟩
  exact c7_bitbucket_paginate_pages fetchC7w "p" ["q"] _ _ 2 hs (by decide)

/-- C9: both pagination loops fetch one page per iteration with no
page-count cap, and (over well-formed pages) they terminate exactly when
the chain of `next` links is finite: the loop completes for some fuel
iff the chain reaches a dead (absent or falsy) URL, and a run that
exhausts its fuel has made exactly one fetch per iteration. -/
theorem c9_paginators_terminate (fetch : String → HttpResponse) (u : String)
    (_hu : u ≠ "") :
    (ghWF fetch (some u) →
      ((∃ fuel, (github_paginate fetch fuel u).1 ≠ .error .outOfFuel) ↔
        (∃ n, urlTruthy (ghIter fetch n (some u)) = false))) ∧
    (∀ fuel, (github_paginate fetch fuel u).1 = .error .outOfFuel →
      (github_paginate fetch fuel u).2.length = fuel) ∧
    (bbWF fetch (some u) →
      ((∃ fuel, (bitbucket_paginate fetch fuel u).1 ≠ .error .outOfFuel) ↔
        (∃ n, urlTruthy (bbIter fetch n (some u)) = false))) ∧
    (∀ fuel, (bitbucket_paginate fetch fuel u).1 = .error .outOfFuel →
      (bitbucket_paginate fetch fuel u).2.length = fuel) := by
  refine ⟨?_, ?_, ?_, ?_⟩
  · intro hwf
    constructor
    · rintro ⟨fuel, hterm⟩
      by_contra hnone
      push_neg at hnone
      have halive : ∀ n, urlTruthy (ghIter fetch n (some u)) = true := by
        intro n
        cases hcase : urlTruthy (ghIter fetch n (some u)) with
        | false => exact absurd hcase (hnone n)
        | true => rfl
      exact hterm (gh_loop_runs_out fetch fuel (some u) [] [] hwf (halive fuel))
    · rintro ⟨n, hdead⟩
      obtain ⟨res, tr2, hres⟩ :=
        gh_loop_terminates fetch n (some u) [] [] n hwf hdead (le_refl n)
      exact ⟨n, by rw [github_paginate, hres]; simp⟩
  · intro fuel h
    have := gh_loop_fuel_trace fetch fuel (some u) [] [] h
    simpa [github_paginate] using this
  · intro hwf
    constructor
    · rintro ⟨fuel, hterm⟩
      by_contra hnone
      push_neg at hnone
      have halive : ∀ n, urlTruthy (bbIter fetch n (some u)) = true := by
        intro n
        cases hcase : urlTruthy (bbIter fetch n (some u)) with
        | false => exact absurd hcase (hnone n)
        | true => rfl
      exact hterm (bb_loop_runs_out fetch fuel (some u) [] [] hwf (halive fuel))
    · rintro ⟨n, hdead⟩
      obtain ⟨res, tr2, hres⟩ :=
        bb_loop_terminates fetch n (some u) [] [] n hwf hdead (le_refl n)
      exact ⟨n, by rw [bitbucket_paginate]; rw [show (some (Json.str u)) =
        Option.map Json.str (some u) from rfl, hres]; simp⟩
  · intro fuel h
    have := bb_loop_fuel_trace fetch fuel (some (Json.str u)) [] [] h
    simpa [bitbucket_paginate] using this

theorem fetchC9w_ghWF : ghWF fetchC9w (some "w") := by
  intro n v hn hv
  cases n with
  | zero =>
    rw [show ghIter fetchC9w 0 (some "w") = some "w" from rfl] at hn
    injection hn with h2
    subst h2
    exact ⟨Json.obj [], [], rfl, rfl⟩
  | succ n =>
    have h1 : ghIter fetchC9w (n + 1) (some "w") = none := by
      show ghIter fetchC9w n (ghStep fetchC9w (some "w")) = none
      rw [show ghStep fetchC9w (some "w") = none from rfl, ghIter_none]
    rw [h1] at hn
    cases hn

theorem fetchC9w_bbWF : bbWF fetchC9w (some "w") := by
  intro n v hn hv
  cases n with
  | zero =>
    rw [show bbIter fetchC9w 0 (some "w") = some "w" from rfl] at hn
    injection hn with h2
    subst h2
    refine ⟨[], rfl, ?_⟩
    intro nj hnj
    simp [jsonLookup] at hnj
  | succ n =>
    have h1 : bbIter fetchC9w (n + 1) (some "w") = none := by
      show bbIter fetchC9w n (bbStep fetchC9w (some "w")) = none
      rw [show bbStep fetchC9w (some "w") = none from rfl, bbIter_none]
    rw [h1] at hn
    cases hn

/-- Witness for C9: a world with a single well-formed page and no `next`
link satisfies both well-formedness hypotheses, and both termination
equivalences hold there. -/
theorem c9_witness :
    (("w" : String) ≠ "") ∧
    ((∃ fuel, (github_paginate fetchC9w fuel "w").1 ≠ .error .outOfFuel) ↔
      (∃ n, urlTruthy (ghIter fetchC9w n (some "w")) = false)) ∧
    ((∃ fuel, (bitbucket_paginate fetchC9w fuel "w").1 ≠ .error .outOfFuel) ↔
      (∃ n, urlTruthy (bbIter fetchC9w n (some "w")) = false)) :=
  ⟨by decide,
   (c9_paginators_terminate fetchC9w "w" (by decide)).1 fetchC9w_ghWF,
   (c9_paginators_terminate fetchC9w "w" (by decide)).2.2.1 fetchC9w_bbWF⟩

/-- C3: for every user who has a Bitbucket token (hence a session) but no
stored Bitbucket social-account record, `import_bitbucket` with sync
enabled proceeds past the account lookup and reaches the reference to
the unset `social_account` while building the user-repositories URL:
the run fails there with the `UnboundLocalError` (`nameError`) of that
reference — no explicit early failure, no HTTP request, no upsert
(effects unchanged). -/
theorem c3_unbound_social_account (fetch : String → HttpResponse) (db : Db)
    (user : User) (fuel : Nat) (eff : Effects) (token : SocialToken)
    (ts : List SocialToken)
    (htok : tokensFor db user bitbucketProviderId = token :: ts)
    (hacc : accountsFor db user bitbucketProviderId = []) :
    import_bitbucket fetch db user true fuel eff = (.error .nameError, eff) := by
  have hsess := get_oauth_session_bitbucket db user token ts htok
  have hacct : socialaccount_get db user bitbucketProviderId =
      (match (none : Option SocialAccount) with
       | some a => .ok a
       | none => .error .doesNotExist) := by
    rw [socialaccount_get, hacc]
  have hstep : bb_user_repos_step fetch fuel user none eff =
      (.error .nameError, eff) := rfl
  rw [import_bitbucket_phases fetch db user fuel _ none eff hsess hacct,
    catchAs_error_not_mem [.typeError, .valueError] bbMsg1
      (bb_user_repos_step fetch fuel user none) eff eff .nameError hstep
      (by decide)]

/-- Witness for C3: a store with one Bitbucket token and no Bitbucket
social account makes the import reach the unset-identifier reference and
fail with `nameError`, with no HTTP request issued. -/
theorem c3_witness :
    tokensFor dbNoAcctW userW bitbucketProviderId =
      [⟨"tok", "sec", "cid", "csec", "bitbucket", "u"⟩] ∧
    accountsFor dbNoAcctW userW bitbucketProviderId = [] ∧
    import_bitbucket fetchNoneW dbNoAcctW userW true 1 Effects.empty =
      (.error .nameError, Effects.empty) :=
  ⟨rfl, rfl,
   c3_unbound_social_account fetchNoneW dbNoAcctW userW 1 Effects.empty _ _ rfl rfl⟩

/-- C5 counterexample: a user with no stored Bitbucket credential but two
Bitbucket social accounts (allauth permits several accounts of one
provider per user) makes `import_bitbucket` raise Django's
`MultipleObjectsReturned` from `socialaccount_set.get(provider=...)`
instead of returning `False` without an exception, refuting the claim as
stated. -/
theorem c5_counterexample :
    tokensFor dbTwoAcctW userW bitbucketProviderId = [] ∧
    import_bitbucket fetchNoneW dbTwoAcctW userW true 0 Effects.empty =
      (.error .multipleObjectsReturned, Effects.empty) ∧
    (Except.error PyError.multipleObjectsReturned : Except PyError Bool) ≠
      .ok false :=
  ⟨rfl, rfl, fun h => Except.noConfusion h⟩

/-- C5 (amended): for every user with no stored credential for either
provider — and at most one stored Bitbucket social account — the session
lookup returns nothing for both providers and both importers return
`False` without issuing any HTTP request and without raising (effects
unchanged); with two or more Bitbucket social accounts the Bitbucket
importer instead raises `MultipleObjectsReturned` (see the
counterexample). -/
theorem c5_no_credential_no_call (db : Db) (user : User) (sync : Bool)
    (fetchG fetchB : String → HttpResponse) (fuelG fuelB : Nat) (eff : Effects)
    (hgh : tokensFor db user githubProviderId = [])
    (hbb : tokensFor db user bitbucketProviderId = [])
    (hacc : accountsFor db user bitbucketProviderId = [] ∨
      ∃ a, accountsFor db user bitbucketProviderId = [a]) :
    get_oauth_session db user githubProviderId = .ok none ∧
    get_oauth_session db user bitbucketProviderId = .ok none ∧
    import_github fetchG db user sync fuelG eff = (.ok false, eff) ∧
    import_bitbucket fetchB db user sync fuelB eff = (.ok false, eff) := by
  have h1 := get_oauth_session_none db user githubProviderId hgh
  have h2 := get_oauth_session_none db user bitbucketProviderId hbb
  refine ⟨h1, h2, ?_, ?_⟩
  · simp [import_github, h1]
  · rcases hacc with hacc | ⟨a, hacc⟩ <;>
      simp [import_bitbucket, h2, socialaccount_get, hacc]

/-- Witness for C5 (amended): a user with an empty credential store gets
`.ok none` sessions and `False` from both importers, with no effects. -/
theorem c5_witness :
    tokensFor ⟨[], []⟩ userW githubProviderId = [] ∧
    tokensFor ⟨[], []⟩ userW bitbucketProviderId = [] ∧
    accountsFor ⟨[], []⟩ userW bitbucketProviderId = [] ∧
    get_oauth_session ⟨[], []⟩ userW githubProviderId = .ok none ∧
    get_oauth_session ⟨[], []⟩ userW bitbucketProviderId = .ok none ∧
    import_github fetchNoneW ⟨[], []⟩ userW true 1 Effects.empty =
      (.ok false, Effects.empty) ∧
    import_bitbucket fetchNoneW ⟨[], []⟩ userW true 1 Effects.empty =
      (.ok false, Effects.empty) := by
  have h := c5_no_credential_no_call ⟨[], []⟩ userW true fetchNoneW fetchNoneW 1 1
    Effects.empty rfl rfl (Or.inl rfl)
  exact ⟨rfl, rfl, rfl, h.1, h.2.1, h.2.2.1, h.2.2.2⟩

/-- C8: for every project whose source URL is
`git@github.com:owner/repo.git`, webhook registration issues exactly one
POST, to `https://api.github.com/repos/owner/repo/hooks`, whose JSON
body has `"active": true` and whose `config.url` is built from the
configured production domain. -/
theorem c8_webhook_registration (settings : Settings) (project : Project)
    (hrepo : project.repo = "git@github.com:owner/repo.git") :
    ∃ req, add_github_webhook settings project = [req] ∧
      req.url = "https://api.github.com/repos/owner/repo/hooks" ∧
      ∃ fields, req.body = Json.obj fields ∧
        jsonLookup fields "active" = some (Json.bool true) ∧
        ∃ cfields, jsonLookup fields "config" = some (Json.obj cfields) ∧
          jsonLookup cfields "url" =
            some (Json.str ("https://" ++ settings.productionDomain ++ "/github")) := by
  refine ⟨⟨"https://api.github.com/repos/owner/repo/hooks",
    Json.obj [("name", Json.str "readthedocs"), ("active", Json.bool true),
      ("config", Json.obj
        [("url", Json.str ("https://" ++ settings.productionDomain ++ "/github"))])],
    "application/json"⟩, ?_, rfl, ?_⟩
  · rw [add_github_webhook, hrepo]
    rfl
  · exact ⟨_, rfl, rfl, _, rfl, rfl⟩

/-- Witness for C8: a concrete project with that URL and production
domain `readthedocs.org`. -/
theorem c8_witness :
    (Project.mk 1 [] "git@github.com:owner/repo.git").repo =
      "git@github.com:owner/repo.git" ∧
    ∃ req, add_github_webhook ⟨true, true, "readthedocs.org"⟩
        (Project.mk 1 [] "git@github.com:owner/repo.git") = [req] ∧
      req.url = "https://api.github.com/repos/owner/repo/hooks" ∧
      ∃ fields, req.body = Json.obj fields ∧
        jsonLookup fields "active" = some (Json.bool true) ∧
        ∃ cfields, jsonLookup fields "config" = some (Json.obj cfields) ∧
          jsonLookup cfields "url" =
            some (Json.str ("https://" ++ "readthedocs.org" ++ "/github")) :=
  ⟨rfl, c8_webhook_registration ⟨true, true, "readthedocs.org"⟩ _ rfl⟩

/-- C1 counterexample: with a valid Bitbucket token and account, a
privileges response whose JSON body is the number `3` makes
`resp.json()['teams']` raise `TypeError` in the team-repository phase;
the phase catches only `ValueError`, so the raw `TypeError` propagates
instead of the phase-2 reconnect error, refuting the claim as stated. -/
theorem c1_counterexample :
    import_bitbucket fetchC1x dbBbW userW true 2 Effects.empty =
      (.error .typeError, ⟨[], [], [bbReposUidUrl, bbPrivilegesUrl], []⟩) ∧
    PyError.typeError ≠ PyError.exception bbMsg2 ∧
    PyError.typeError ≠ PyError.exception bbMsg1 :=
  ⟨rfl, fun h => PyError.noConfusion h, fun h => PyError.noConfusion h⟩

/-- C1 (amended): the Bitbucket importer catches `TypeError` and
`ValueError` in the user-repository phase, re-raising the phase-1
reconnect error, but the team-repository phase catches only
`ValueError`, re-raising the phase-2 reconnect error; a `TypeError`
raised in the team phase propagates unchanged.  The two reconnect
messages remain distinct per phase. -/
theorem c1_bitbucket_catch_policy (fetch : String → HttpResponse) (db : Db)
    (user : User) (fuel : Nat) (sess : OAuthSession) (acct : SocialAccount)
    (eff : Effects)
    (hsess : get_oauth_session db user bitbucketProviderId = .ok (some sess))
    (hacct : socialaccount_get db user bitbucketProviderId = .ok acct) :
    (∀ e eff2,
      bb_user_repos_step fetch fuel user (some acct) eff = (.error e, eff2) →
      (e = .typeError ∨ e = .valueError) →
      import_bitbucket fetch db user true fuel eff =
        (.error (.exception bbMsg1), eff2)) ∧
    (∀ eff2,
      bb_user_repos_step fetch fuel user (some acct) eff = (.ok (), eff2) →
      ∀ e eff3,
        bb_team_repos_step fetch fuel user (fetch bbPrivilegesUrl)
          (addGet eff2 bbPrivilegesUrl) = (.error e, eff3) →
        (e = .valueError →
          import_bitbucket fetch db user true fuel eff =
            (.error (.exception bbMsg2), eff3)) ∧
        (e = .typeError →
          import_bitbucket fetch db user true fuel eff =
            (.error .typeError, eff3))) := by
  have hphases := import_bitbucket_phases fetch db user fuel sess (some acct) eff
    hsess (by rw [hacct])
  constructor
  · intro e eff2 hstep he
    rw [hphases,
      catchAs_error_mem [.typeError, .valueError] bbMsg1
        (bb_user_repos_step fetch fuel user (some acct)) eff eff2 e hstep
        (by rcases he with rfl | rfl <;> simp)]
  · intro eff2 hstep e eff3 hteam
    constructor
    · intro he
      subst he
      rw [hphases,
        catchAs_ok [.typeError, .valueError] bbMsg1
          (bb_user_repos_step fetch fuel user (some acct)) eff eff2 () hstep]
      dsimp only
      rw [catchAs_error_mem [.valueError] bbMsg2
        (bb_team_repos_step fetch fuel user (fetch bbPrivilegesUrl))
        (addGet eff2 bbPrivilegesUrl) eff3 .valueError hteam (by simp)]
    · intro he
      subst he
      rw [hphases,
        catchAs_ok [.typeError, .valueError] bbMsg1
          (bb_user_repos_step fetch fuel user (some acct)) eff eff2 () hstep]
      dsimp only
      rw [catchAs_error_not_mem [.valueError] bbMsg2
        (bb_team_repos_step fetch fuel user (fetch bbPrivilegesUrl))
        (addGet eff2 bbPrivilegesUrl) eff3 .typeError hteam (by simp)]

/-- Witness for C1 (amended): a world where the user-repository phase
succeeds and the privileges response has an invalid JSON body, so
`resp.json()` raises `ValueError` in the team phase and the phase-2
reconnect error is raised. -/
theorem c1_witness :
    get_oauth_session dbBbW userW bitbucketProviderId =
      .ok (some (.oauth1 "cid" "csec" "tok" "sec")) ∧
    socialaccount_get dbBbW userW bitbucketProviderId =
      .ok ⟨"bitbucket", "u", "uid1"⟩ ∧
    bb_user_repos_step fetchC1w 1 userW (some ⟨"bitbucket", "u", "uid1"⟩)
      Effects.empty = (.ok (), ⟨[], [], [bbReposUidUrl], []⟩) ∧
    bb_team_repos_step fetchC1w 1 userW (fetchC1w bbPrivilegesUrl)
      (addGet ⟨[], [], [bbReposUidUrl], []⟩ bbPrivilegesUrl) =
      (.error .valueError, ⟨[], [], [bbReposUidUrl, bbPrivilegesUrl], []⟩) ∧
    import_bitbucket fetchC1w dbBbW userW true 1 Effects.empty =
      (.error (.exception bbMsg2), ⟨[], [], [bbReposUidUrl, bbPrivilegesUrl], []⟩) := by
  refine ⟨rfl, rfl, rfl, rfl, ?_⟩
  exact ((c1_bitbucket_catch_policy fetchC1w dbBbW userW 1
      (.oauth1 "cid" "csec" "tok" "sec") ⟨"bitbucket", "u", "uid1"⟩
      Effects.empty rfl rfl).2
    ⟨[], [], [bbReposUidUrl], []⟩ rfl .valueError
    ⟨[], [], [bbReposUidUrl, bbPrivilegesUrl], []⟩ rfl).1 rfl

/-- C2 counterexample: a user-repository listing whose JSON body is the
number `1` is not an array of repository objects, yet the importer does
not raise the phase-1 reconnect error: `result.extend(r.json())` raises
`TypeError` inside `github_paginate`, which runs before (outside) the
phase-1 `try` block, so the raw `TypeError` propagates. -/
theorem c2_counterexample :
    import_github fetchC2x dbGhW userW true 2 Effects.empty =
      (.error .typeError, ⟨[], [], [ghUserReposUrl], []⟩) ∧
    PyError.typeError ≠ PyError.exception ghMsg1 :=
  ⟨rfl, fun h => PyError.noConfusion h⟩

/-- C2 (amended): when the user-repository listing is an iterable
response containing a non-object item (for example an array holding a
number, or — via dict-key iteration — a non-empty JSON object), the
importer raises the phase-1 reconnect error and the only upserts that
occur are those completed in that phase before the failure, with no
rollback; a non-iterable listing (number, boolean, null) instead makes
the raw `TypeError` escape the paginator before the `try` block (see the
counterexample). -/
theorem c2_github_malformed_repos (fetch : String → HttpResponse) (db : Db)
    (user : User) (f : Nat) (sess : OAuthSession) (eff : Effects)
    (hsess : get_oauth_session db user githubProviderId = .ok (some sess)) :
    (∀ (good : List Json) (bad : Json) (rest : List Json),
      fetch ghUserReposUrl = ⟨some (.arr (good ++ bad :: rest)), none⟩ →
      (∀ r ∈ good, ∃ fields, r = Json.obj fields) →
      (∀ fields, bad ≠ Json.obj fields) →
      import_github fetch db user true (f + 1) eff =
        (.error (.exception ghMsg1),
         { eff with
           repos := eff.repos ++ good.map (fun r => ⟨r, user, none⟩),
           gets := eff.gets ++ [ghUserReposUrl] })) ∧
    (∀ (p : String × Json) (fs : List (String × Json)),
      fetch ghUserReposUrl = ⟨some (.obj (p :: fs)), none⟩ →
      import_github fetch db user true (f + 1) eff =
        (.error (.exception ghMsg1),
         { eff with gets := eff.gets ++ [ghUserReposUrl] })) := by
  constructor
  · intro good bad rest hresp hgood hbad
    have hpag := github_paginate_single fetch ghUserReposUrl
      (.arr (good ++ bad :: rest)) (good ++ bad :: rest) f (by decide) hresp rfl
    rw [import_github_phases fetch db user (f + 1) sess eff hsess, hpag]
    dsimp only
    rw [catchAs_error_mem [.typeError, .valueError] ghMsg1
      (gh_upsert_repos user none (good ++ bad :: rest)) _ _ .typeError
      (gh_upsert_repos_until_bad user none good bad rest _ hgood hbad) (by simp)]
  · intro p fs hresp
    have hpag := github_paginate_single fetch ghUserReposUrl (.obj (p :: fs))
      ((p :: fs).map (fun kv : String × Json => Json.str kv.1)) f (by decide)
      hresp rfl
    rw [import_github_phases fetch db user (f + 1) sess eff hsess, hpag]
    dsimp only
    have hup := gh_upsert_repos_until_bad user none [] (Json.str p.1)
      (fs.map (fun kv : String × Json => Json.str kv.1))
      { eff with gets := eff.gets ++ [ghUserReposUrl] }
      (by intro r hr; cases hr) (fun fields h => Json.noConfusion h)
    rw [catchAs_error_mem [.typeError, .valueError] ghMsg1
      (gh_upsert_repos user none ((p :: fs).map (fun kv : String × Json => Json.str kv.1)))
      _ _ .typeError hup (by simp)]
    simp

/-- Witness for C2 (amended): a listing holding one repository object and
then a number raises the phase-1 reconnect error with exactly the one
upsert completed before the failure remaining, and a listing that is a
non-empty JSON object raises the phase-1 reconnect error with no
upserts. -/
theorem c2_witness :
    fetchC2w ghUserReposUrl =
      ⟨some (.arr ([Json.obj [("name", Json.str "r1")]] ++ Json.num 7 :: [])),
        none⟩ ∧
    (∀ r ∈ [Json.obj [("name", Json.str "r1")]], ∃ fields, r = Json.obj fields) ∧
    (∀ fields, Json.num 7 ≠ Json.obj fields) ∧
    import_github fetchC2w dbGhW userW true 2 Effects.empty =
      (.error (.exception ghMsg1),
       ⟨[⟨Json.obj [("name", Json.str "r1")], userW, none⟩], [],
        [ghUserReposUrl], []⟩) ∧
    fetchC2o ghUserReposUrl =
      ⟨some (.obj (("k", Json.null) :: [])), none⟩ ∧
    import_github fetchC2o dbGhW userW true 2 Effects.empty =
      (.error (.exception ghMsg1), ⟨[], [], [ghUserReposUrl], []⟩) := by
  have hg : ∀ r ∈ [Json.obj [("name", Json.str "r1")]],
      ∃ fields, r = Json.obj fields := by
    intro r hr
    rw [List.mem_singleton] at hr
    exact ⟨_, hr⟩
  refine ⟨rfl, hg, fun fields h => Json.noConfusion h, ?_, rfl, ?_⟩
  · exact (c2_github_malformed_repos fetchC2w dbGhW userW 1
      (.oauth2 "cid" "tok" "bearer") Effects.empty rfl).1
      [Json.obj [("name", Json.str "r1")]] (Json.num 7) [] rfl hg
      (fun fields h => Json.noConfusion h)
  · exact (c2_github_malformed_repos fetchC2o dbGhW userW 1
      (.oauth2 "cid" "tok" "bearer") Effects.empty rfl).2
      ("k", Json.null) [] rfl

/-- C4 counterexample: with private repos allowed and the local path
selected, the first user's query yields a token and the second user's
query raises; the exception is logged and swallowed, but the function
returns the already-found token — not nothing — refuting the claim as
stated. -/
theorem c4_counterexample :
    get_token_for_project ⟨true, false, "readthedocs.org"⟩
        (fun _ => .error .keyError) queryW ⟨1, ["alice", "bob"], "x"⟩ false =
      (some (Json.str "tokA"), [tokenFailLog]) ∧
    some (Json.str "tokA") ≠ (none : Option Json) :=
  ⟨rfl, fun h => Option.noConfusion h⟩

/-- C4 (amended): with private repos allowed, any exception during the
token lookup is logged and swallowed, and the function returns the value
the `token` variable held when the exception struck: in the remote-API
path always nothing, but in the local path the token found for the
latest earlier user (nothing if none had been found). -/
theorem c4_token_lookup_swallows (settings : Settings)
    (apiToken : Nat → Except PyError Json)
    (queryTokens : String → Except PyError (List String))
    (project : Project) (forceLocal : Bool)
    (hallow : settings.allowPrivateRepos = true) :
    ((settings.dontHitDb && !forceLocal) = true →
      ∀ e, (do pySubscript (← apiToken project.pk) "token" :
          Except PyError Json) = .error e →
        get_token_for_project settings apiToken queryTokens project forceLocal =
          (none, [tokenFailLog])) ∧
    ((settings.dontHitDb && !forceLocal) = false →
      ∀ (pre : List String) (u : String) (rest2 : List String) (e : PyError),
        project.users = pre ++ u :: rest2 →
        (∀ v ∈ pre, ∃ ts, queryTokens v = .ok ts) →
        queryTokens u = .error e →
        get_token_for_project settings apiToken queryTokens project forceLocal =
          (lastTokenFrom queryTokens pre none, [tokenFailLog])) := by
  constructor
  · intro hcond e herr
    rw [get_token_for_project, hallow]
    rw [if_neg (by decide), if_pos hcond, herr]
  · intro hcond pre u rest2 e husers hpre herr
    rw [get_token_for_project, hallow]
    rw [if_neg (by decide), if_neg (by simp [hcond]), husers,
      localTokenLoop_split queryTokens pre u rest2 e none hpre herr]

/-- Witness for C4 (amended): the local path with users
`["alice", "bob"]` where `alice` has a token and querying `bob` raises
returns `alice`'s token together with the failure log line. -/
theorem c4_witness :
    (Settings.mk true false "readthedocs.org").allowPrivateRepos = true ∧
    ((Settings.mk true false "readthedocs.org").dontHitDb && !false) = false ∧
    (Project.mk 1 ["alice", "bob"] "x").users = ["alice"] ++ "bob" :: [] ∧
    (∀ v ∈ ["alice"], ∃ ts, queryW v = .ok ts) ∧
    queryW "bob" = .error (.exception "database error") ∧
    get_token_for_project ⟨true, false, "readthedocs.org"⟩
        (fun _ => .error .keyError) queryW ⟨1, ["alice", "bob"], "x"⟩ false =
      (lastTokenFrom queryW ["alice"] none, [tokenFailLog]) := by
  have hpre : ∀ v ∈ ["alice"], ∃ ts, queryW v = .ok ts := by
    intro v hv
    rw [List.mem_singleton] at hv
    subst hv
    exact ⟨["tokA"], rfl⟩
  refine ⟨rfl, rfl, rfl, hpre, rfl, ?_⟩
  exact (c4_token_lookup_swallows ⟨true, false, "readthedocs.org"⟩
    (fun _ => .error .keyError) queryW ⟨1, ["alice", "bob"], "x"⟩ false rfl).2
    rfl ["alice"] "bob" [] (.exception "database error") rfl hpre rfl

/-- C10 counterexample: a dict page group without a `values` key raises
`KeyError`, which the helper's `except TypeError` does not catch, so the
helper does not return normally and the error propagates to the
importer, refuting the claim as stated. -/
theorem c10_counterexample :
    process_bitbucket_json userW [Json.obj [("other", Json.null)]]
        Effects.empty =
      (.error .keyError, Effects.empty) ∧
    (Except.error PyError.keyError : Except PyError Unit) ≠ .ok () :=
  ⟨rfl, fun h => Except.noConfusion h⟩

/-- C10 (amended): the page-processing helper catches `TypeError` only.
A malformed page group whose processing raises `TypeError` (a
non-subscriptable page, or a non-iterable `values` entry) is printed and
the helper returns normally, keeping the upserts of the page groups
processed before it and stopping there; but a dict page group missing
the `values` key raises `KeyError`, which propagates (with the earlier
upserts likewise kept). -/
theorem c10_process_pages (user : User) (good : List Json) (bad : Json)
    (rest : List Json) (eff : Effects)
    (hgood : ∀ p ∈ good, GoodPage p) :
    (BadTypePage bad →
      process_bitbucket_json user (good ++ bad :: rest) eff =
        (.ok (), { eff with
          repos := eff.repos ++ pagesUpserts user good,
          printed := eff.printed ++ [PyError.typeError] })) ∧
    (∀ fields, bad = Json.obj fields → jsonLookup fields "values" = none →
      process_bitbucket_json user (good ++ bad :: rest) eff =
        (.error .keyError,
         { eff with repos := eff.repos ++ pagesUpserts user good })) := by
  constructor
  · intro hbad
    have hloop : process_bitbucket_json_loop user (good ++ bad :: rest) eff =
        (.error .typeError,
         { eff with repos := eff.repos ++ pagesUpserts user good }) := by
      rw [pbj_loop_good user good (bad :: rest) eff hgood]
      rcases hbad with hsub | ⟨vs, hsub, hit⟩
      · rw [process_bitbucket_json_loop, hsub]
      · rw [process_bitbucket_json_loop, hsub]
        dsimp only
        rw [hit]
    simp only [process_bitbucket_json]
    rw [hloop]
  · intro fields hb hnone
    subst hb
    have hsub : pySubscript (Json.obj fields) "values" = .error .keyError := by
      rw [pySubscript, hnone]
    have hloop : process_bitbucket_json_loop user
        (good ++ Json.obj fields :: rest) eff =
        (.error .keyError,
         { eff with repos := eff.repos ++ pagesUpserts user good }) := by
      rw [pbj_loop_good user good (Json.obj fields :: rest) eff hgood,
        process_bitbucket_json_loop, hsub]
    simp only [process_bitbucket_json]
    rw [hloop]

/-- Witness for C10 (amended): one well-formed page group, then a page
group whose `values` is a number; the helper prints the `TypeError`,
returns normally, keeps the first group's upsert, and never processes
the following group. -/
theorem c10_witness :
    (∀ p ∈ [Json.obj [("values", Json.arr [Json.obj [("n", Json.num 1)]])]],
      GoodPage p) ∧
    BadTypePage (Json.obj [("values", Json.num 5)]) ∧
    process_bitbucket_json userW
        ([Json.obj [("values", Json.arr [Json.obj [("n", Json.num 1)]])]] ++
          Json.obj [("values", Json.num 5)] ::
            [Json.obj [("values", Json.arr [Json.obj []])]])
        Effects.empty =
      (.ok (), ⟨[⟨Json.obj [("n", Json.num 1)], userW, none⟩], [], [],
        [PyError.typeError]⟩) := by
  have hgood : ∀ p ∈ [Json.obj [("values", Json.arr [Json.obj [("n", Json.num 1)]])]],
      GoodPage p := by
    intro p hp
    rw [List.mem_singleton] at hp
    subst hp
    refine ⟨Json.arr [Json.obj [("n", Json.num 1)]],
      [Json.obj [("n", Json.num 1)]], rfl, rfl, ?_⟩
    intro r hr
    rw [List.mem_singleton] at hr
    exact ⟨_, hr⟩
  refine ⟨hgood, Or.inr ⟨Json.num 5, rfl, rfl⟩, ?_⟩
  exact (c10_process_pages userW
    [Json.obj [("values", Json.arr [Json.obj [("n", Json.num 1)]])]]
    (Json.obj [("values", Json.num 5)])
    [Json.obj [("values", Json.arr [Json.obj []])]]
    Effects.empty hgood).1 (Or.inr ⟨Json.num 5, rfl, rfl⟩)
